import Mathlib

/-!
# File transfer over a duplex FIFO transport: model and verification

A shallow embedding of `src/linux-x86_64/file_transfer.cpp`.

* Files are lists of bytes; an `ifstream` is a file content together with a
  get position and a fail flag.
* `size_t` values are natural numbers.  The only place where the source leaves
  `size_t` arithmetic is the mismatch offset of `compare_content`, which goes
  through `(int)` casts; these are modelled with explicit wrap-around.
* The worker loops (`stream_out`, `stream_in`) are small-step machines.  What
  the outside world decides (the random chunk size, the answer of the
  transport) is an explicit input of a step; an asynchronous `SIGINT` is an
  event of its own between two steps.
-/

namespace FileTransfer

/-! ## Bytes, files and input streams -/

/-- One `uint8_t` / `char`. -/
abbrev Byte := Fin 256

/-- The content of a file on disk. -/
abbrev File := List Byte

/-- Source line 21: `static const int BUFFER_LEN = 128*1024;` -/
def BUFFER_LEN : Nat := 128 * 1024

/-- Source line 387: `static const size_t BLOCKSIZE = 4096;` -/
def BLOCKSIZE : Nat := 4096

/-- An `std::ifstream`: the content of the file it is attached to, the get
position, and whether `failbit` is set (the stream then tests false and every
further `read` extracts nothing). -/
structure IFStream where
  data : List Byte
  pos : Nat
  failed : Bool
deriving DecidableEq, Repr

/-- The call `ifstream::open` (also the opening constructor).  `none` stands
for a path that cannot be opened.  A default constructed stream has the
exception mask `goodbit`, so a failed `open` only sets `failbit`: it does not
throw. -/
def IFStream.openFile : Option File → IFStream
  | some d => { data := d, pos := 0, failed := false }
  | none => { data := [], pos := 0, failed := true }

/-- The call `ifstream::read(buf, n)`: the stream after the call and the bytes
extracted (`gcount()` is their number).  Fewer than `n` bytes left sets
`failbit` (with `eofbit`); a stream whose `failbit` is set extracts nothing. -/
def IFStream.read (s : IFStream) (n : Nat) : IFStream × List Byte :=
  if s.failed then (s, [])
  else
    let chunk := (s.data.drop s.pos).take n
    ({ s with pos := s.pos + chunk.length, failed := decide (chunk.length < n) }, chunk)

/-! ## Machine integers -/

/-- The cast `(int)x` of an unsigned value: reduction into the 32-bit
two's-complement range. -/
def toInt (n : Nat) : Int := ((n : Int) + 2 ^ 31) % 2 ^ 32 - 2 ^ 31

/-- Arithmetic on `int`, wrapped into the 32-bit two's-complement range. -/
def wrapInt (z : Int) : Int := (z + 2 ^ 31) % 2 ^ 32 - 2 ^ 31

/-- The conversion of an `int` to `size_t` (64 bits) in a mixed expression. -/
def toSizeT (z : Int) : Nat := (z % 2 ^ 64).toNat

/-! ## `compare_content` -/

/-- What `compare_content` prints. -/
inductive Report where
  | sizeNotSame (size1 size2 : Nat)
  | contentNotSameAt (offset : Nat)
  | nothing
  | binarySame
deriving DecidableEq, Repr

/-- The return value of `compare_content` together with what it printed. -/
structure Verdict where
  result : Bool
  report : Report
deriving DecidableEq, Repr

/-- Source line 400: `size_t offset = (int)size1 - (int)remaining + i;` -/
def mismatch_offset (size1 remaining i : Nat) : Nat :=
  (toSizeT (wrapInt (toInt size1 - toInt remaining)) + i) % 2 ^ 64

/-- Source lines 398-404: the scan `for (i = 0; i < size; i++)` for the first
index at which the two buffers differ, started at index `i`. -/
def scanDiff : List Byte → List Byte → Nat → Option Nat
  | a :: as, b :: bs, i => if a ≠ b then some i else scanDiff as bs (i + 1)
  | _, _, _ => none

/-- Source lines 390-411: the loop `while (remaining)`.  The first argument
bounds the number of iterations; `none` means the bound was too small.  The
two buffers hold the `size` bytes just read (both reads are complete, as both
files hold `size1` bytes), so `memcmp` over `size` bytes is list equality. -/
def compare_loop : Nat → Nat → IFStream → IFStream → Nat → Option Verdict
  | 0, _, _, _, _ => none
  | fuel + 1, size1, in1, in2, remaining =>
    if remaining = 0 then some { result := true, report := Report.binarySame }
    else
      let size := min BLOCKSIZE remaining
      let r1 := in1.read size
      let r2 := in2.read size
      if r1.2 ≠ r2.2 then
        match scanDiff r1.2 r2.2 0 with
        | some i =>
          some { result := false,
                 report := Report.contentNotSameAt (mismatch_offset size1 remaining i) }
        | none => some { result := false, report := Report.nothing }
      else compare_loop fuel size1 r1.1 r2.1 (remaining - size)

/-- Source lines 368-416: `compare_content(from, to)` on two files that can be
opened.  The lengths are measured by seeking to the end, then both streams are
rewound.  Every iteration of the loop consumes at least one byte, so
`size1 + 1` iterations always suffice. -/
def compare_content (file1 file2 : File) : Option Verdict :=
  let in1 := IFStream.openFile (some file1)
  let in2 := IFStream.openFile (some file2)
  let size1 := in1.data.length
  let size2 := in2.data.length
  if size1 ≠ size2 then
    some { result := false, report := Report.sizeNotSame size1 size2 }
  else compare_loop (size1 + 1) size1 in1 in2 size1

/-! ## Globals and the transport -/

/-- Modelled from the spec: the status type of `ftd3xx.h` (the header is not
among the sources). The transport interface distinguishes success, timeout and
any other error code; `stream_out` compares against `FT_OK` and `FT_TIMEOUT`
only. -/
inductive FT_STATUS where
  | FT_OK
  | FT_TIMEOUT
  | FT_OTHER (code : Nat)
deriving DecidableEq, Repr

/-- The static variables shared by the threads (source lines 14-26). The two
counters are `atomic_int`. -/
structure Globals where
  do_exit : Bool
  tx_count : Int
  rx_count : Int
  transfer_failed : Bool
deriving DecidableEq, Repr

/-- The value of the statics when the program starts (zero initialised). -/
def Globals.start : Globals :=
  { do_exit := false, tx_count := 0, rx_count := 0, transfer_failed := false }

/-- Source lines 125-132: `sig_hdlr(SIGINT)`. -/
def sig_hdlr (g : Globals) : Globals := { g with do_exit := true }

/-- The compound assignment `counter += count` on an `atomic_int`. -/
def atomic_add (counter : Int) (count : Nat) : Int := wrapInt (counter + count)

/-- Source line 24: the values `random_len(rng)` can return,
`uniform_int_distribution<size_t>(1, BUFFER_LEN / 4)`. -/
def random_len_range (r : Nat) : Bool := decide (1 ≤ r) && decide (r ≤ BUFFER_LEN / 4)

/-- Source lines 60 and 104: `size_t len = random_len(rng) * 4;` -/
def planned_len (r : Nat) : Nat := r * 4

/-! ## `stream_out` -/

/-- Where `stream_out` stands: at the head of its `while` loop, at the call of
`FT_WritePipeEx` (label `_retry`), or behind the loop. -/
inductive OutPC where
  | loop
  | write
  | stopped
deriving DecidableEq, Repr

/-- The locals of `stream_out`. `buf` is the working buffer, `len` the size of
the chunk it holds. -/
structure OutState where
  pc : OutPC
  src : IFStream
  buf : List Byte
  len : Nat
  total : Nat
deriving DecidableEq, Repr

/-- One call `FT_WritePipeEx(handle, channel, buf, len, &count, timeout)`:
the channel, the `len` bytes handed over, and `len`. -/
structure WriteCall where
  channel : Nat
  data : List Byte
  len : Nat
deriving DecidableEq, Repr

/-- What the outside world contributes to one step of `stream_out`: the value
drawn from `random_len` (used at the loop head) and the answer of
`FT_WritePipeEx` (used at the call). -/
structure OutInput where
  rnd : Nat
  status : FT_STATUS
  count : Nat
deriving DecidableEq, Repr

/-- Source lines 49-57: the state in which `stream_out` reaches its loop.
`file` is `none` when the source cannot be opened: `open` then sets `failbit`
and, the exception mask being empty, throws nothing, so the `catch` with its
`return` is not taken. `buf0` is the content of the freshly allocated buffer. -/
def stream_out_begin (file : Option File) (buf0 : List Byte) : OutState :=
  { pc := OutPC.loop, src := IFStream.openFile file, buf := buf0, len := 0, total := 0 }

/-- Source lines 59-84: one step of `stream_out`, with the call it issues.
At the loop head the step runs up to the call of `FT_WritePipeEx` (or through
the whole iteration when no byte was read); at the call it runs from the call
to the next loop head, back to the call (`goto _retry`) or out of the loop. -/
def stream_out_step (file_length channel : Nat) (inp : OutInput) (g : Globals)
    (s : OutState) : Globals × OutState × Option WriteCall :=
  match s.pc with
  | OutPC.loop =>
    if !g.do_exit && decide (s.total < file_length) then
      let r := s.src.read (planned_len inp.rnd)
      let buf := r.2 ++ s.buf.drop r.2.length
      let len := if r.1.failed then toSizeT (toInt r.2.length) else planned_len inp.rnd
      if len ≠ 0 then
        (g, { pc := OutPC.write, src := r.1, buf := buf, len := len, total := s.total }, none)
      else
        ({ g with tx_count := atomic_add g.tx_count 0 },
         { pc := OutPC.loop, src := r.1, buf := buf, len := len, total := s.total + 0 }, none)
    else (g, { s with pc := OutPC.stopped }, none)
  | OutPC.write =>
    let call : WriteCall := { channel := channel, data := s.buf.take s.len, len := s.len }
    if inp.status ≠ FT_STATUS.FT_OK then
      if g.do_exit then (g, { s with pc := OutPC.stopped }, some call)
      else if inp.status = FT_STATUS.FT_TIMEOUT then (g, s, some call)
      else
        ({ g with do_exit := true, tx_count := atomic_add g.tx_count inp.count },
         { s with pc := OutPC.loop, total := s.total + inp.count }, some call)
    else
      ({ g with tx_count := atomic_add g.tx_count inp.count },
       { s with pc := OutPC.loop, total := s.total + inp.count }, some call)
  | OutPC.stopped => (g, s, none)

/-- What can happen while `stream_out` runs: a step of its own, or a `SIGINT`
delivered between two steps. -/
inductive OutEvent where
  | step (inp : OutInput)
  | sigint
deriving DecidableEq, Repr

/-- A run of `stream_out`: globals, locals and the transport calls so far. -/
structure OutConfig where
  g : Globals
  s : OutState
  calls : List WriteCall
deriving DecidableEq, Repr

/-- The effect of one event on a run of `stream_out`. -/
def stream_out_event (file_length channel : Nat) (c : OutConfig) (e : OutEvent) : OutConfig :=
  match e with
  | OutEvent.step inp =>
    let o := stream_out_step file_length channel inp c.g c.s
    { g := o.1, s := o.2.1, calls := c.calls ++ o.2.2.toList }
  | OutEvent.sigint => { c with g := sig_hdlr c.g }

/-- A run of `stream_out` over a list of events. -/
def stream_out_run (file_length channel : Nat) (evs : List OutEvent) (c : OutConfig) :
    OutConfig :=
  evs.foldl (stream_out_event file_length channel) c

/-- Every random value of the events is one `random_len` can return. -/
def out_random_ok : List OutEvent → Bool
  | [] => true
  | OutEvent.step inp :: es => random_len_range inp.rnd && out_random_ok es
  | OutEvent.sigint :: es => out_random_ok es

/-- The transport never reports more bytes written than the call asked for. -/
def out_transport_ok (file_length channel : Nat) : List OutEvent → OutConfig → Bool
  | [], _ => true
  | OutEvent.step inp :: es, c =>
    (c.s.pc != OutPC.write || decide (inp.count ≤ c.s.len)) &&
      out_transport_ok file_length channel es
        (stream_out_event file_length channel c (OutEvent.step inp))
  | OutEvent.sigint :: es, c =>
    out_transport_ok file_length channel es (stream_out_event file_length channel c OutEvent.sigint)

/-- No `SIGINT` among the events. -/
def out_no_sigint : List OutEvent → Bool
  | [] => true
  | OutEvent.step _ :: es => out_no_sigint es
  | OutEvent.sigint :: _ => false

/-! ## `stream_in` -/

/-- Where `stream_in` stands: at the head of its `while` loop or behind it. -/
inductive InPC where
  | loop
  | stopped
deriving DecidableEq, Repr

/-- The locals of `stream_in`: `dest` is the content of the destination file,
which the function creates empty (`trunc`) and appends to. -/
structure InState where
  pc : InPC
  dest : List Byte
  total : Nat
deriving DecidableEq, Repr

/-- One call `FT_ReadPipeEx(handle, channel, buf, len, &count, timeout)`. -/
structure ReadCall where
  channel : Nat
  len : Nat
deriving DecidableEq, Repr

/-- What the outside world contributes to one iteration of `stream_in`: the
value drawn from `random_len` and the answer of `FT_ReadPipeEx`, whose `count`
is the length of `data`, the bytes the call left at the start of the buffer. -/
structure InInput where
  rnd : Nat
  status : FT_STATUS
  data : List Byte
deriving DecidableEq, Repr

/-- Source lines 92-100: the state in which `stream_in` reaches its loop, the
destination created empty. -/
def stream_in_begin : InState := { pc := InPC.loop, dest := [], total := 0 }

/-- Source lines 104-108: the size `stream_in` asks the transport for. -/
def stream_in_len (file_length total rnd : Nat) : Nat :=
  let len := planned_len rnd
  let left := file_length - total
  if len > left then left else len

/-- Source lines 102-122: one iteration of the loop of `stream_in` (or the
exit from it), with the call it issues. -/
def stream_in_step (file_length channel : Nat) (inp : InInput) (g : Globals)
    (s : InState) : Globals × InState × Option ReadCall :=
  match s.pc with
  | InPC.loop =>
    if !g.do_exit && decide (s.total < file_length) then
      let call : ReadCall :=
        { channel := channel, len := stream_in_len file_length s.total inp.rnd }
      let count := inp.data.length
      if count = 0 then (g, s, some call)
      else
        ({ g with rx_count := atomic_add g.rx_count count },
         { s with dest := s.dest ++ inp.data, total := s.total + count }, some call)
    else (g, { s with pc := InPC.stopped }, none)
  | InPC.stopped => (g, s, none)

/-- What can happen while `stream_in` runs. -/
inductive InEvent where
  | step (inp : InInput)
  | sigint
deriving DecidableEq, Repr

/-- A run of `stream_in`: globals, locals and the transport calls so far. -/
structure InConfig where
  g : Globals
  s : InState
  calls : List ReadCall
deriving DecidableEq, Repr

/-- The effect of one event on a run of `stream_in`. -/
def stream_in_event (file_length channel : Nat) (c : InConfig) (e : InEvent) : InConfig :=
  match e with
  | InEvent.step inp =>
    let o := stream_in_step file_length channel inp c.g c.s
    { g := o.1, s := o.2.1, calls := c.calls ++ o.2.2.toList }
  | InEvent.sigint => { c with g := sig_hdlr c.g }

/-- A run of `stream_in` over a list of events. -/
def stream_in_run (file_length channel : Nat) (evs : List InEvent) (c : InConfig) : InConfig :=
  evs.foldl (stream_in_event file_length channel) c

/-- The transport never reports more bytes read than the call asked for. -/
def in_transport_ok (file_length channel : Nat) : List InEvent → InConfig → Bool
  | [], _ => true
  | InEvent.step inp :: es, c =>
    decide (inp.data.length ≤ stream_in_len file_length c.s.total inp.rnd) &&
      in_transport_ok file_length channel es
        (stream_in_event file_length channel c (InEvent.step inp))
  | InEvent.sigint :: es, c =>
    in_transport_ok file_length channel es (stream_in_event file_length channel c InEvent.sigint)

/-! ## One channel over a lossless loopback transport -/

/-- The two workers of one channel, the globals they share and the bytes the
transport holds: written by `stream_out` and not yet read by `stream_in`. -/
structure Session where
  g : Globals
  w : OutState
  r : InState
  fifo : List Byte
deriving DecidableEq, Repr

/-- A scheduling decision: the writer thread takes a step (drawing `rnd` if it
stands at its loop head), or the reader thread runs one iteration, drawing
`rnd`, with the transport willing to deliver up to `want` bytes. -/
inductive Act where
  | writer (rnd : Nat)
  | reader (rnd want : Nat)
deriving DecidableEq, Repr

/-- Both random values are ones `random_len` can return. -/
def Act.valid : Act → Bool
  | Act.writer rnd => random_len_range rnd
  | Act.reader rnd _ => random_len_range rnd

/-- A writer step. -/
def Act.isWriter : Act → Bool
  | Act.writer _ => true
  | Act.reader _ _ => false

/-- A reader step in which the transport is willing to deliver a byte. -/
def Act.isLiveReader : Act → Bool
  | Act.writer _ => false
  | Act.reader _ want => decide (1 ≤ want)

/-- One step of a channel on the loopback transport. A write is answered with
`FT_OK` and `count = len`, and its bytes are queued. A read of `len` bytes is
answered with the first `min want len` queued bytes (fewer when fewer are
queued), which leave the queue. -/
def loopback_step (file_length channel : Nat) (c : Session) (a : Act) : Session :=
  match a with
  | Act.writer rnd =>
    let o := stream_out_step file_length channel
      { rnd := rnd, status := FT_STATUS.FT_OK, count := c.w.len } c.g c.w
    { g := o.1, w := o.2.1, r := c.r,
      fifo := c.fifo ++ (match o.2.2 with
        | some call => call.data
        | none => []) }
  | Act.reader rnd want =>
    let data := c.fifo.take (min want (stream_in_len file_length c.r.total rnd))
    let o := stream_in_step file_length channel
      { rnd := rnd, status := if data.length = 0 then FT_STATUS.FT_TIMEOUT else FT_STATUS.FT_OK,
        data := data } c.g c.r
    { g := o.1, w := c.w, r := o.2.1,
      fifo := match o.2.2 with
        | some _ => c.fifo.drop data.length
        | none => c.fifo }

/-- Source lines 421-422: both workers started on the source file, the
transport empty. -/
def session_begin (src : File) (buf0 : List Byte) (g : Globals) : Session :=
  { g := g, w := stream_out_begin (some src) buf0, r := stream_in_begin, fifo := [] }

/-- A run of one channel under a schedule. -/
def session_run (file_length channel : Nat) (acts : List Act) (c : Session) : Session :=
  acts.foldl (loopback_step file_length channel) c

/-- Source lines 424-427: both worker threads have returned and can be joined. -/
def Session.joined (c : Session) : Bool :=
  c.w.pc == OutPC.stopped && c.r.pc == InPC.stopped

/-! ## `file_transfer` and the end of `main` -/

/-- A `file_transfer` thread: inside its `do ... while` loop or returned. -/
inductive FtPC where
  | running
  | returned
deriving DecidableEq, Repr

/-- The state of `main` between the start of the channel sessions and its
`return`: the globals, one `file_transfer` thread per channel, and the results
of the `compare_content` calls made so far, with their channel. -/
structure MainState where
  g : Globals
  threads : List FtPC
  verdicts : List (Nat × Bool)
deriving DecidableEq, Repr

/-- What can happen between the start of the sessions and the return of
`main`: on one channel both workers have been joined, leaving `dest` as the
content of the destination file, and `file_transfer` goes through source lines
429-431; or a `SIGINT` is delivered. -/
inductive MainEvent where
  | pass (channel : Nat) (dest : File)
  | sigint
deriving DecidableEq, Repr

/-- Source lines 429-431: the verification of one pass of `file_transfer` and
the test of the `do ... while` loop. An event for a thread that has returned
has no effect, nor has a `compare_content` that does not return. -/
def file_transfer_pass (src : File) (loop_mode : Bool) (c : MainState) (channel : Nat)
    (dest : File) : MainState :=
  match c.threads.get? channel with
  | some FtPC.running =>
    match compare_content src dest with
    | some v =>
      let g := if !v.result then { c.g with transfer_failed := true } else c.g
      { g := g,
        threads := c.threads.set channel
          (if loop_mode && !g.do_exit then FtPC.running else FtPC.returned),
        verdicts := c.verdicts ++ [(channel, v.result)] }
    | none => c
  | _ => c

/-- The effect of one event between session start and the return of `main`. -/
def main_event (src : File) (loop_mode : Bool) (c : MainState) (e : MainEvent) : MainState :=
  match e with
  | MainEvent.pass channel dest => file_transfer_pass src loop_mode c channel dest
  | MainEvent.sigint => { c with g := sig_hdlr c.g }

/-- Source lines 483-488: `ch_cnt` sessions started. -/
def main_sessions_start (ch_cnt : Nat) (g : Globals) : MainState :=
  { g := g, threads := List.replicate ch_cnt FtPC.running, verdicts := [] }

/-- The events from session start on, in the order in which they happen. -/
def main_run (src : File) (loop_mode : Bool) (evs : List MainEvent) (c : MainState) :
    MainState :=
  evs.foldl (main_event src loop_mode) c

/-- Source lines 490-501: `main` joins every `file_transfer` thread, so it
returns only when all of them have; it then returns `transfer_failed`,
converted to `int`. -/
def main_return (c : MainState) : Option Int :=
  if c.threads.all (fun t => t == FtPC.returned) then
    some (if c.g.transfer_failed then 1 else 0)
  else none

/-! ## The start of `main`: arguments, chip configuration, fan-out -/

/-- The statics `loop_mode` and `ch_cnt` (source lines 15 and 20); `ch_cnt`
is a `uint8_t`. -/
structure Settings where
  loop_mode : Bool
  ch_cnt : Nat
deriving DecidableEq, Repr

/-- The value of these statics when the program starts (zero initialised). -/
def Settings.start : Settings := { loop_mode := false, ch_cnt := 0 }

/-- Source lines 338-354: `validate_arguments(argc, argv)`, with its effect on
the statics. `arg3` and `arg4` are the values `atoi(argv[3])` and
`atoi(argv[4])`; the assignment to the `uint8_t ch_cnt` reduces modulo 256. -/
def validate_arguments (argc : Nat) (arg3 arg4 : Int) (st : Settings) : Bool × Settings :=
  if argc ≠ 4 ∧ argc ≠ 5 then (false, st)
  else
    let r : Bool × Settings :=
      if argc = 5 then
        if arg4 ≠ 0 ∧ arg4 ≠ 1 then (false, st)
        else (true, { st with loop_mode := decide (arg4 ≠ 0) })
      else (true, st)
    if !r.1 then r
    else
      let st2 : Settings := { r.2 with ch_cnt := (arg3 % 256).toNat }
      if st2.ch_cnt > 4 then (false, st2) else (true, st2)

/-- Modelled from the spec: the `FIFOMode` values of `ftd3xx.h` (the header is
not among the sources). `set_ft600_channel_config` tells apart
`CONFIGURATION_FIFO_MODE_245`, `CONFIGURATION_FIFO_MODE_600` and anything
else. -/
inductive FIFO_MODE where
  | mode_245
  | mode_600
  | unknown (v : Nat)
deriving DecidableEq, Repr

/-- Modelled from the spec: the `ChannelConfig` values of `ftd3xx.h`:
`CONFIGURATION_CHANNEL_CONFIG_1`, `_2`, `_4`, and any other value a chip may
report. -/
inductive CHANNEL_CONFIG where
  | config_1
  | config_2
  | config_4
  | other (v : Nat)
deriving DecidableEq, Repr

/-- Modelled from the spec: the constants of `ftd3xx.h` the program uses, taken
as parameters: the two feature masks
`CONFIGURATION_OPTIONAL_FEATURE_ENABLENOTIFICATIONMESSAGE_INCHALL` and
`CONFIGURATION_OPTIONAL_FEATURE_DISABLECANCELSESSIONUNDERRUN`, and the clock
`CONFIGURATION_FIFO_CLK_100`. -/
structure HeaderConsts where
  notification_inchall : Nat
  disable_cancel_underrun : Nat
  fifo_clk_100 : Nat
deriving DecidableEq, Repr

/-- The fields of `FT_60XCONFIGURATION` the program reads or writes. -/
structure FT_60XCONFIGURATION where
  OptionalFeatureSupport : Nat
  FIFOClock : Nat
  FIFOMode : FIFO_MODE
  ChannelConfig : CHANNEL_CONFIG
deriving DecidableEq, Repr

/-- Source lines 216-275: `set_ft600_channel_config(cfg, clock, is_600_mode)`
for the static `ch_cnt`. The result is `Except.error code` when the function
ends the process with `exit(code)`, and otherwise the returned flag with the
configuration as the function leaves it. Clearing the bits of a mask `m` in
`x` (`x &= ~m`) is `x ^^^ (x &&& m)`. -/
def set_ft600_channel_config (k : HeaderConsts) (ch_cnt : Nat) (cfg : FT_60XCONFIGURATION)
    (clock : Nat) (is_600_mode : Bool) : Except Int (Bool × FT_60XCONFIGURATION) :=
  let a : Bool × FT_60XCONFIGURATION :=
    if cfg.OptionalFeatureSupport &&& k.notification_inchall ≠ 0 then
      (true, { cfg with OptionalFeatureSupport :=
        cfg.OptionalFeatureSupport ^^^ (cfg.OptionalFeatureSupport &&& k.notification_inchall) })
    else (false, cfg)
  let b : Bool × FT_60XCONFIGURATION :=
    if a.2.OptionalFeatureSupport &&& k.disable_cancel_underrun = 0 then
      (true, { a.2 with OptionalFeatureSupport :=
        a.2.OptionalFeatureSupport ||| k.disable_cancel_underrun })
    else a
  let needs_update : Bool := if b.2.FIFOClock ≠ clock then true else b.1
  let mode : Except Int Bool :=
    match b.2.FIFOMode with
    | FIFO_MODE.mode_245 => Except.ok false
    | FIFO_MODE.mode_600 => Except.ok true
    | FIFO_MODE.unknown _ => Except.error (-1)
  match mode with
  | Except.error code => Except.error code
  | Except.ok current_is_600mode =>
    let ch : Except Int CHANNEL_CONFIG :=
      if ch_cnt < 2 then Except.ok CHANNEL_CONFIG.config_1
      else if ch_cnt = 2 then Except.ok CHANNEL_CONFIG.config_2
      else if ch_cnt = 4 then Except.ok CHANNEL_CONFIG.config_4
      else Except.error (-1)
    match ch with
    | Except.error code => Except.error code
    | Except.ok ch =>
      if b.2.ChannelConfig = ch ∧ current_is_600mode = is_600_mode ∧ needs_update = false then
        Except.ok (false, b.2)
      else
        Except.ok (true, { b.2 with
          ChannelConfig := ch, FIFOClock := clock,
          FIFOMode := if is_600_mode then FIFO_MODE.mode_600 else FIFO_MODE.mode_245 })

/-- What the device library answers during the start of `main`: whether
`get_device_lists` finds a device, whether `FT_GetDeviceInfoDetail` yields a
handle, the configuration `FT_GetChipConfiguration` reads (`none` on failure),
whether the device type is FT600 or FT601, the firmware version, and whether
`FT_Create` yields a handle. -/
structure Device where
  listed : Bool
  detail_handle : Bool
  chip : Option FT_60XCONFIGURATION
  is_600_or_601 : Bool
  firmware : Nat
  create_handle : Bool
deriving DecidableEq, Repr

/-- Source lines 277-326: `set_channel_config(clock)`: `Except.error code` when
the process is ended inside `set_ft600_channel_config`, else the returned
`rev_a_chip`. Writing a changed configuration back to the chip has no effect on
what is modelled here. -/
def set_channel_config (k : HeaderConsts) (dev : Device) (ch_cnt clock : Nat) :
    Except Int Bool :=
  let is_600_mode : Bool := ch_cnt != 0
  if !dev.detail_handle then Except.ok false
  else
    match dev.chip with
    | none => Except.ok false
    | some cfg =>
      match set_ft600_channel_config k ch_cnt cfg clock is_600_mode with
      | Except.error code => Except.error code
      | Except.ok _ =>
        if dev.is_600_or_601 then Except.ok (decide (dev.firmware ≤ 0x105))
        else Except.ok false

/-- Source lines 356-366: `get_file_length`, the position after seeking to the
end: the length of the file, or `-1` when the stream could not be opened. -/
def get_file_length (s : IFStream) : Int :=
  if s.failed then -1 else (s.data.length : Int)

/-- A thread started by `main`: the throughput meter `show_throughput`, or a
channel session `file_transfer(handle, channel, from, target)`. -/
inductive Worker where
  | show_throughput
  | file_transfer (channel : Nat) (src target : String)
deriving DecidableEq, Repr

/-- How `main` ends: it returns a value, or the process is aborted by
`std::terminate` (signal `SIGABRT`; a shell reports status 134), which is what
the destructor of a `std::thread` that is still joinable calls. -/
inductive MainEnd where
  | returned (code : Int)
  | aborted
deriving DecidableEq, Repr

/-- How far `main` has come when it either ends early or has started all its
threads: the threads started so far, in order, and how it ended (`none` when
`main` goes on to join the sessions). -/
structure Launch where
  started : List Worker
  status : Option MainEnd
deriving DecidableEq, Repr

/-- Source lines 483-488: the loop `for (int i = 0; i < ch_cnt; i++)` that
starts the sessions, from index `i` on; the first argument bounds the number of
iterations. `to_string(i)` is the decimal representation of `i`; the channel
argument of `file_transfer` is a `uint8_t`. -/
def start_sessions (ch_cnt : Nat) (src dst : String) : Nat → Nat → List Worker → List Worker
  | 0, _, started => started
  | fuel + 1, i, started =>
    if i < ch_cnt then
      let target := if ch_cnt > 1 then dst ++ toString i else dst
      start_sessions ch_cnt src dst fuel (i + 1)
        (started ++ [Worker.file_transfer (i % 256) src target])
    else started

/-- Source lines 462-488 of `main` (the pipe timeouts apart): a count of 0
becomes 1, the meter thread is started, the source is measured, and either the
sessions are started or, for length 0, `return -1` is executed. That `return`
destroys the locals of `main`, among them `measure_thread`, which was started
at line 471 and has been neither joined nor detached: its destructor calls
`std::terminate`, so the process is aborted and `main` never hands -1 to its
caller. `source` is the content of the file at path `src` (`none` when it
cannot be opened). -/
def main_fan_out (ch_cnt : Nat) (src dst : String) (source : Option File) : Launch :=
  let ch_cnt := if ch_cnt = 0 then 1 else ch_cnt
  let started := [Worker.show_throughput]
  let file_length := toSizeT (get_file_length (IFStream.openFile source))
  if file_length = 0 then { started := started, status := some MainEnd.aborted }
  else { started := start_sessions ch_cnt src dst ch_cnt 0 started, status := none }

/-- Source lines 434-488: `main` up to the point where it ends early or has
started its threads. `Except.error code` stands for the process ended by
`exit(code)` inside `set_ft600_channel_config`. The three early returns before
line 471 happen while no thread object exists, so they are plain returns. -/
def main_start (k : HeaderConsts) (argc : Nat) (arg3 arg4 : Int) (dev : Device)
    (src dst : String) (source : Option File) : Except Int Launch :=
  let v := validate_arguments argc arg3 arg4 Settings.start
  if !v.1 then Except.ok { started := [], status := some (MainEnd.returned 1) }
  else if !dev.listed then Except.ok { started := [], status := some (MainEnd.returned 1) }
  else
    match set_channel_config k dev v.2.ch_cnt k.fifo_clk_100 with
    | Except.error code => Except.error code
    | Except.ok _ =>
      if !dev.create_handle then
        Except.ok { started := [], status := some (MainEnd.returned (-1)) }
      else Except.ok (main_fan_out v.2.ch_cnt src dst source)

/-! ## Invariants and measures used in the proofs -/

/-- What holds of the chunk `stream_out` is about to write: it is not empty,
fits the buffer, is the last `len` bytes read from the source, and its size is
a multiple of 4 unless the read that produced it hit the end of the file. -/
def OutChunkInv (s : OutState) : Prop :=
  s.src.pos ≤ s.src.data.length ∧
  (s.src.failed = true → s.src.pos = s.src.data.length) ∧
  (s.pc = OutPC.write →
    1 ≤ s.len ∧ s.len ≤ BUFFER_LEN ∧ s.len ≤ s.src.pos ∧
    (s.len % 4 = 0 ∨ s.src.failed = true) ∧
    s.buf.take s.len = (s.src.data.drop (s.src.pos - s.len)).take s.len ∧
    (s.buf.take s.len).length = s.len)

/-- The tally of `stream_out` never runs ahead of what was read from the
source, and the loop is left with the flag unset only at `file_length`. -/
def OutTallyInv (file_length : Nat) (g : Globals) (s : OutState) : Prop :=
  (s.pc = OutPC.write → s.total + s.len ≤ s.src.pos) ∧
  s.total ≤ s.src.pos ∧
  (s.pc = OutPC.stopped → g.do_exit = true ∨ file_length ≤ s.total)

/-- The tally of `stream_in` never exceeds `file_length`, and the loop is left
with the flag unset only at `file_length`. -/
def InTallyInv (file_length : Nat) (g : Globals) (s : InState) : Prop :=
  s.total ≤ file_length ∧
  (s.pc = InPC.stopped → g.do_exit = true ∨ file_length ≤ s.total)

/-- What holds of a channel on the loopback transport while nobody cancels:
the writer's tally is exactly what it has handed to the transport, and the
destination followed by the queued bytes is the prefix of the source of that
length. -/
def SessionInv (src : File) (c : Session) : Prop :=
  c.g.do_exit = false ∧ c.w.src.data = src ∧ OutChunkInv c.w ∧
  (c.w.pc = OutPC.write → c.w.total + c.w.len = c.w.src.pos) ∧
  (c.w.pc ≠ OutPC.write → c.w.total = c.w.src.pos) ∧
  (c.w.pc = OutPC.stopped → src.length ≤ c.w.total) ∧
  c.r.dest ++ c.fifo = src.take c.w.total ∧
  c.r.total = c.r.dest.length ∧
  (c.r.pc = InPC.stopped → c.r.total = src.length)

/-- A bound on the number of steps the writer still takes. -/
def out_measure (file_length : Nat) (s : OutState) : Nat :=
  match s.pc with
  | OutPC.loop => 2 * (file_length - s.total) + 1
  | OutPC.write => 2 * (file_length - s.total)
  | OutPC.stopped => 0

/-- A bound on the number of non-empty reads the reader still needs. -/
def in_measure (file_length : Nat) (s : InState) : Nat :=
  match s.pc with
  | InPC.loop => file_length - s.total + 1
  | InPC.stopped => 0

/-! ## Concrete runs -/

/-- A source file of five bytes. -/
def sample_src : File := [1, 2, 3, 4, 5]

/-- A schedule on which a channel carrying `sample_src` completes: a full
chunk of 4 bytes, a short chunk of 1 byte, reads of 3, 0 and 2 bytes. -/
def sample_schedule : List Act :=
  [Act.writer 1, Act.writer 1, Act.reader 1 3, Act.writer 1, Act.reader 2 0, Act.writer 1,
   Act.reader 1 8, Act.writer 1, Act.reader 1 8, Act.reader 1 1]

/-- A run of `stream_out` on `sample_src`: one timeout, then both chunks are
written in full. -/
def sample_out_events : List OutEvent :=
  [OutEvent.step { rnd := 1, status := FT_STATUS.FT_OK, count := 0 },
   OutEvent.step { rnd := 1, status := FT_STATUS.FT_TIMEOUT, count := 0 },
   OutEvent.step { rnd := 1, status := FT_STATUS.FT_OK, count := 4 },
   OutEvent.step { rnd := 1, status := FT_STATUS.FT_OK, count := 0 },
   OutEvent.step { rnd := 1, status := FT_STATUS.FT_OK, count := 1 },
   OutEvent.step { rnd := 1, status := FT_STATUS.FT_OK, count := 0 }]

/-- A run of `stream_in` for five bytes: 3 bytes, an empty read, 2 bytes. -/
def sample_in_events : List InEvent :=
  [InEvent.step { rnd := 1, status := FT_STATUS.FT_OK, data := [1, 2, 3] },
   InEvent.step { rnd := 1, status := FT_STATUS.FT_TIMEOUT, data := [] },
   InEvent.step { rnd := 1, status := FT_STATUS.FT_OK, data := [4, 5] },
   InEvent.step { rnd := 1, status := FT_STATUS.FT_OK, data := [] }]

/-- The writer about to write a chunk of four bytes. -/
def sample_out_state : OutState :=
  { pc := OutPC.write, src := { data := sample_src, pos := 4, failed := false },
    buf := [1, 2, 3, 4], len := 4, total := 0 }

/-- Two channels, of which the second receives a wrong byte. -/
def sample_main_events : List MainEvent :=
  [MainEvent.pass 0 [1, 2, 3, 4, 5], MainEvent.pass 1 [1, 2, 3, 4, 6]]

/-- Header constants for the concrete runs. -/
def sample_consts : HeaderConsts :=
  { notification_inchall := 60, disable_cancel_underrun := 2, fifo_clk_100 := 0 }

/-- A chip in FT245 mode with one channel and the notification feature on. -/
def sample_chip : FT_60XCONFIGURATION :=
  { OptionalFeatureSupport := 4, FIFOClock := 0, FIFOMode := FIFO_MODE.mode_245,
    ChannelConfig := CHANNEL_CONFIG.config_1 }

/-- A device that answers every call of the start of `main`. -/
def sample_device : Device :=
  { listed := true, detail_handle := true, chip := some sample_chip, is_600_or_601 := true,
    firmware := 0x109, create_handle := true }

/-- The same device when `FT_GetDeviceInfoDetail` yields no handle. -/
def sample_device_no_detail : Device := { sample_device with detail_handle := false }

/-! ## Verification of `compare_content` -/

theorem read_good (d : List Byte) (p n : Nat) (h : p + n ≤ d.length) :
    IFStream.read { data := d, pos := p, failed := false } n
      = ({ data := d, pos := p + n, failed := false }, (d.drop p).take n) := by
  have hl : ((d.drop p).take n).length = n := by
    rw [List.length_take, List.length_drop]; omega
  simp only [IFStream.read, hl]
  simp

theorem scanDiff_append (u : List Byte) (x y : Byte) (s1 s2 : List Byte) (h : x ≠ y) :
    ∀ i, scanDiff (u ++ x :: s1) (u ++ y :: s2) i = some (i + u.length) := by
  induction u with
  | nil => intro i; simp [scanDiff, h]
  | cons a u ih =>
    intro i
    rw [List.cons_append, List.cons_append, scanDiff, if_neg (by simp), ih]
    simp only [List.length_cons, Option.some.injEq]
    omega

theorem exists_first_diff : ∀ (A B : List Byte), A.length = B.length → A ≠ B →
    ∃ pre x y sa sb, A = pre ++ x :: sa ∧ B = pre ++ y :: sb ∧ x ≠ y ∧ sa.length = sb.length
  | [], [], _, h => absurd rfl h
  | [], _ :: _, h, _ => by simp at h
  | _ :: _, [], h, _ => by simp at h
  | a :: as, b :: bs, hl, hne => by
    by_cases hab : a = b
    · subst hab
      have hl2 : as.length = bs.length := by simpa using hl
      have hne2 : as ≠ bs := fun h => hne (by rw [h])
      obtain ⟨pre, x, y, sa, sb, h1, h2, h3, h4⟩ := exists_first_diff as bs hl2 hne2
      exact ⟨a :: pre, x, y, sa, sb, by simp [h1], by simp [h2], h3, h4⟩
    · exact ⟨[], a, b, as, bs, rfl, rfl, hab, by simpa using hl⟩

theorem compare_loop_same (A : List Byte) (n : Nat) :
    ∀ fuel p, p ≤ A.length → A.length - p < fuel →
      compare_loop fuel n { data := A, pos := p, failed := false }
        { data := A, pos := p, failed := false } (A.length - p)
        = some { result := true, report := Report.binarySame } := by
  intro fuel
  induction fuel with
  | zero => intro p _ h; omega
  | succ f ih =>
    intro p hp hf
    rw [compare_loop]
    by_cases h0 : A.length - p = 0
    · rw [if_pos h0]
    · rw [if_neg h0]
      have hs : p + min BLOCKSIZE (A.length - p) ≤ A.length := by omega
      have hr : A.length - p - min BLOCKSIZE (A.length - p)
          = A.length - (p + min BLOCKSIZE (A.length - p)) := by omega
      have := ih (p + min BLOCKSIZE (A.length - p)) hs (by unfold BLOCKSIZE; omega)
      simp only [read_good _ _ _ hs, ne_eq, not_true_eq_false, if_false, hr, this]

theorem compare_loop_diff (pre sa sb : List Byte) (x y : Byte) (hxy : x ≠ y)
    (hlen : sa.length = sb.length) (n : Nat) (hn : n = (pre ++ x :: sa).length) :
    ∀ fuel p, p ≤ pre.length → n - p < fuel →
      compare_loop fuel n { data := pre ++ x :: sa, pos := p, failed := false }
        { data := pre ++ y :: sb, pos := p, failed := false } (n - p)
        = some { result := false,
                 report := Report.contentNotSameAt
                   (mismatch_offset n
                     (n - (p + BLOCKSIZE * ((pre.length - p) / BLOCKSIZE)))
                     ((pre.length - p) % BLOCKSIZE)) } := by
  have hn2 : n = (pre ++ y :: sb).length := by
    rw [hn]; simp [hlen]
  have hnl : n = pre.length + sa.length + 1 := by rw [hn]; simp; omega
  intro fuel
  induction fuel with
  | zero => intro p _ h; omega
  | succ f ih =>
    intro p hp hf
    rw [compare_loop]
    have h0 : n - p ≠ 0 := by omega
    rw [if_neg h0]
    have hs1 : p + min BLOCKSIZE (n - p) ≤ (pre ++ x :: sa).length := by rw [← hn]; omega
    have hs2 : p + min BLOCKSIZE (n - p) ≤ (pre ++ y :: sb).length := by rw [← hn2]; omega
    simp only [read_good _ _ _ hs1, read_good _ _ _ hs2]
    by_cases hblk : pre.length - p < min BLOCKSIZE (n - p)
    · -- the first difference lies in this block
      have e1 : ((pre ++ x :: sa).drop p).take (min BLOCKSIZE (n - p))
          = pre.drop p ++ x :: sa.take (min BLOCKSIZE (n - p) - (pre.length - p) - 1) := by
        rw [List.drop_append_of_le_length hp, List.take_append_eq_append_take,
          List.take_of_length_le (by rw [List.length_drop]; omega), List.length_drop]
        have : min BLOCKSIZE (n - p) - (pre.length - p)
            = (min BLOCKSIZE (n - p) - (pre.length - p) - 1) + 1 := by omega
        rw [this, List.take_succ_cons]
        simp
      have e2 : ((pre ++ y :: sb).drop p).take (min BLOCKSIZE (n - p))
          = pre.drop p ++ y :: sb.take (min BLOCKSIZE (n - p) - (pre.length - p) - 1) := by
        rw [List.drop_append_of_le_length hp, List.take_append_eq_append_take,
          List.take_of_length_le (by rw [List.length_drop]; omega), List.length_drop]
        have : min BLOCKSIZE (n - p) - (pre.length - p)
            = (min BLOCKSIZE (n - p) - (pre.length - p) - 1) + 1 := by omega
        rw [this, List.take_succ_cons]
        simp
      have hne : pre.drop p ++ x :: sa.take (min BLOCKSIZE (n - p) - (pre.length - p) - 1)
          ≠ pre.drop p ++ y :: sb.take (min BLOCKSIZE (n - p) - (pre.length - p) - 1) := by
        intro h
        have := List.append_cancel_left h
        simp at this
        exact hxy this.1
      rw [e1, e2, if_pos hne, scanDiff_append _ _ _ _ _ hxy]
      have hb : pre.length - p < BLOCKSIZE := by omega
      have hd : (pre.length - p) / BLOCKSIZE = 0 := Nat.div_eq_of_lt hb
      have hm : (pre.length - p) % BLOCKSIZE = pre.length - p := Nat.mod_eq_of_lt hb
      simp [hd, hm]
    · -- this block is equal in both files
      have hsz : min BLOCKSIZE (n - p) = BLOCKSIZE := by omega
      have hge : BLOCKSIZE ≤ pre.length - p := by omega
      have e1 : ((pre ++ x :: sa).drop p).take (min BLOCKSIZE (n - p))
          = (pre.drop p).take BLOCKSIZE := by
        rw [hsz, List.drop_append_of_le_length hp,
          List.take_append_of_le_length (by rw [List.length_drop]; exact hge)]
      have e2 : ((pre ++ y :: sb).drop p).take (min BLOCKSIZE (n - p))
          = (pre.drop p).take BLOCKSIZE := by
        rw [hsz, List.drop_append_of_le_length hp,
          List.take_append_of_le_length (by rw [List.length_drop]; exact hge)]
      rw [e1, e2, if_neg (by simp), hsz]
      have hr : n - p - BLOCKSIZE = n - (p + BLOCKSIZE) := by omega
      rw [hr, ih (p + BLOCKSIZE) (by omega) (by unfold BLOCKSIZE at *; omega)]
      have hq : p + BLOCKSIZE + BLOCKSIZE * ((pre.length - (p + BLOCKSIZE)) / BLOCKSIZE)
          = p + BLOCKSIZE * ((pre.length - p) / BLOCKSIZE) := by
        unfold BLOCKSIZE at *; omega
      have hi : (pre.length - (p + BLOCKSIZE)) % BLOCKSIZE = (pre.length - p) % BLOCKSIZE := by
        unfold BLOCKSIZE at *; omega
      rw [hq, hi]

/-- Two files of equal length with a first difference at offset `K`: the loop
stops in the block that holds `K` and prints the offset the source computes
from the size, the count remaining before that block and the index in it. -/
theorem compare_content_first_diff (pre sa sb : List Byte) (x y : Byte) (hxy : x ≠ y)
    (hlen : sa.length = sb.length) (K n : Nat) (hK : pre.length = K)
    (hn : n = K + sa.length + 1) :
    compare_content (pre ++ x :: sa) (pre ++ y :: sb)
      = some { result := false,
               report := Report.contentNotSameAt
                 (mismatch_offset n (n - BLOCKSIZE * (K / BLOCKSIZE)) (K % BLOCKSIZE)) } := by
  have hA : (pre ++ x :: sa).length = n := by
    rw [List.length_append, List.length_cons, hK, hn]; omega
  have hB : (pre ++ y :: sb).length = n := by
    rw [List.length_append, List.length_cons, hK, hn, hlen]; omega
  have h := compare_loop_diff pre sa sb x y hxy hlen n hA.symm (n + 1) 0 (Nat.zero_le _)
    (by omega)
  rw [hK] at h
  simp only [Nat.sub_zero, Nat.zero_add] at h
  unfold compare_content
  simp only [IFStream.openFile, hA, hB, ne_eq, not_true_eq_false, if_false]
  exact h

/-- The offset computation is exact as long as the file size fits in an `int`. -/
theorem mismatch_offset_exact (n q i : Nat) (hn : n < 2 ^ 31) (hq : q + i < n) :
    mismatch_offset n (n - q) i = q + i := by
  unfold mismatch_offset toSizeT wrapInt toInt
  have h1 : ((n : Int) + 2 ^ 31) % 2 ^ 32 = (n : Int) + 2 ^ 31 := by
    apply Int.emod_eq_of_lt <;> omega
  have h2 : (((n - q : Nat) : Int) + 2 ^ 31) % 2 ^ 32 = ((n - q : Nat) : Int) + 2 ^ 31 := by
    apply Int.emod_eq_of_lt <;> omega
  rw [h1, h2]
  have h3 : ((n : Int) + 2 ^ 31 - 2 ^ 31 - (((n - q : Nat) : Int) + 2 ^ 31 - 2 ^ 31)) = (q : Int) := by
    omega
  rw [h3]
  have h4 : ((q : Int) + 2 ^ 31) % 2 ^ 32 = (q : Int) + 2 ^ 31 := by
    apply Int.emod_eq_of_lt <;> omega
  rw [h4]
  have h5 : ((q : Int) + 2 ^ 31 - 2 ^ 31) % 2 ^ 64 = (q : Int) := by
    have : (q : Int) + 2 ^ 31 - 2 ^ 31 = (q : Int) := by omega
    rw [this]
    apply Int.emod_eq_of_lt <;> omega
  rw [h5, Int.toNat_ofNat]
  apply Nat.mod_eq_of_lt
  omega

/-- For files below 2 GiB the printed offset is the offset of the first
differing byte. -/
theorem compare_content_reports_first_diff (pre sa sb : List Byte) (x y : Byte)
    (hxy : x ≠ y) (hlen : sa.length = sb.length)
    (hsmall : (pre ++ x :: sa).length < 2 ^ 31) :
    compare_content (pre ++ x :: sa) (pre ++ y :: sb)
      = some { result := false, report := Report.contentNotSameAt pre.length } := by
  have hl : (pre ++ x :: sa).length = pre.length + sa.length + 1 := by
    rw [List.length_append, List.length_cons]; omega
  rw [compare_content_first_diff pre sa sb x y hxy hlen pre.length
    (pre.length + sa.length + 1) rfl rfl]
  have hq : BLOCKSIZE * (pre.length / BLOCKSIZE) + pre.length % BLOCKSIZE = pre.length :=
    Nat.div_add_mod _ _
  rw [mismatch_offset_exact _ _ _ (by omega) (by omega), hq]

/-- C1: for two readable files `compare_content` returns, and it returns true
exactly when the files have the same length and the same byte at every offset;
when the lengths differ it returns false and reports the two sizes. The block
size of 4096 plays no part in the result. -/
theorem compare_content_true_iff (A B : File) :
    ∃ v, compare_content A B = some v ∧
      (v.result = true ↔ (A.length = B.length ∧ ∀ i, i < A.length → A[i]? = B[i]?)) ∧
      (A.length ≠ B.length →
        v = { result := false, report := Report.sizeNotSame A.length B.length }) := by
  by_cases hl : A.length = B.length
  · by_cases he : A = B
    · subst he
      refine ⟨{ result := true, report := Report.binarySame }, ?_, by simp, by simp⟩
      have h := compare_loop_same A A.length (A.length + 1) 0 (Nat.zero_le _) (by omega)
      simp only [Nat.sub_zero] at h
      unfold compare_content
      simp only [IFStream.openFile, ne_eq, not_true_eq_false, if_false]
      exact h
    · obtain ⟨pre, x, y, sa, sb, h1, h2, h3, h4⟩ := exists_first_diff A B hl he
      have hc := compare_content_first_diff pre sa sb x y h3 h4 pre.length _ rfl rfl
      rw [← h1, ← h2] at hc
      refine ⟨_, hc, ?_, fun h => absurd hl h⟩
      · constructor
        · intro h; simp at h
        · rintro ⟨_, hall⟩
          exfalso
          apply he
          apply List.ext_getElem?
          intro i
          by_cases hi : i < A.length
          · exact hall i hi
          · rw [List.getElem?_eq_none (by omega), List.getElem?_eq_none (by omega)]
  · refine ⟨{ result := false, report := Report.sizeNotSame A.length B.length }, ?_, ?_,
      fun _ => rfl⟩
    · unfold compare_content
      simp only [IFStream.openFile, ne_eq, hl, not_false_eq_true, if_true]
    · simp [hl]

/-- C2 (evaluation at the failing input): two files of 2^31 + 1 bytes that
differ only in their last byte, at offset 2^31. The `(int)` casts of the size
and of the remaining count make the printed offset 2^64 - 2^31, not 2^31. -/
theorem compare_content_offset_wraps :
    compare_content (List.replicate (2 ^ 31) 0 ++ [0]) (List.replicate (2 ^ 31) 0 ++ [1])
        = some { result := false,
                 report := Report.contentNotSameAt 18446744071562067968 } ∧
      (18446744071562067968 : Nat) ≠ 2 ^ 31 := by
  constructor
  · rw [compare_content_first_diff (List.replicate (2 ^ 31) 0) [] [] 0 1 (by decide) rfl
      (2 ^ 31) (2 ^ 31 + 1) (List.length_replicate _ _) rfl]
    have : mismatch_offset (2 ^ 31 + 1) (2 ^ 31 + 1 - BLOCKSIZE * (2 ^ 31 / BLOCKSIZE))
        (2 ^ 31 % BLOCKSIZE) = 18446744071562067968 := by
      decide
    rw [this]
  · decide

/-! ## Chunk planning -/

theorem planned_len_range (r : Nat) (h : random_len_range r = true) :
    planned_len r % 4 = 0 ∧ 4 ≤ planned_len r ∧ planned_len r ≤ BUFFER_LEN ∧
      BUFFER_LEN = 131072 := by
  simp only [random_len_range, BUFFER_LEN, Bool.and_eq_true, decide_eq_true_eq] at h
  simp only [planned_len, BUFFER_LEN]
  refine ⟨by omega, by omega, by omega, by norm_num⟩

/-- C6: for every value `r` that `random_len` can return, the planned chunk
size `r * 4` is a multiple of 4 with `4 ≤ size ≤ BUFFER_LEN = 131072`, so it
fits the working buffer (and the `size_t` product does not wrap). -/
theorem planned_len_bounds (r : Nat) (h : random_len_range r = true) :
    planned_len r % 4 = 0 ∧ 4 ≤ planned_len r ∧ planned_len r ≤ BUFFER_LEN ∧
      BUFFER_LEN = 131072 ∧ planned_len r < 2 ^ 64 := by
  simp only [random_len_range, BUFFER_LEN, Bool.and_eq_true, decide_eq_true_eq] at h
  simp only [planned_len, BUFFER_LEN]
  refine ⟨by omega, by omega, by omega, by norm_num, ?_⟩
  have : (2 : Nat) ^ 64 = 18446744073709551616 := by norm_num
  omega

/-- The bounds at the largest value `random_len` returns. -/
theorem planned_len_bounds_witness :
    random_len_range 32768 = true ∧
      (planned_len 32768 % 4 = 0 ∧ 4 ≤ planned_len 32768 ∧ planned_len 32768 ≤ BUFFER_LEN ∧
        BUFFER_LEN = 131072 ∧ planned_len 32768 < 2 ^ 64) :=
  ⟨by decide, planned_len_bounds 32768 (by decide)⟩

/-! ## The reader on an empty read -/

/-- C8: a transport read of `stream_in` that reports zero bytes, whatever its
status, leaves the globals (both counters, the cancellation flag) and the
locals (tally, destination content) as they were, and the reader stands at its
loop head again. -/
theorem stream_in_empty_read (file_length channel : Nat) (inp : InInput) (g : Globals)
    (s : InState) (call : ReadCall)
    (hcall : (stream_in_step file_length channel inp g s).2.2 = some call)
    (hzero : inp.data.length = 0) :
    stream_in_step file_length channel inp g s = (g, s, some call) ∧ s.pc = InPC.loop := by
  unfold stream_in_step at hcall ⊢
  cases hpc : s.pc with
  | stopped => rw [hpc] at hcall; simp at hcall
  | loop =>
    rw [hpc] at hcall
    simp only [hpc]
    by_cases hc : (!g.do_exit && decide (s.total < file_length)) = true
    · rw [if_pos hc] at hcall ⊢
      simp only [hzero, if_true] at hcall ⊢
      simp only [Option.some.injEq] at hcall
      simp [hcall]
    · rw [if_neg hc] at hcall
      simp at hcall

/-! ## The writer: retry and escalation -/

theorem stream_out_run_nil (file_length channel : Nat) (c : OutConfig) :
    stream_out_run file_length channel [] c = c := rfl

theorem stream_out_run_cons (file_length channel : Nat) (e : OutEvent) (es : List OutEvent)
    (c : OutConfig) :
    stream_out_run file_length channel (e :: es) c
      = stream_out_run file_length channel es (stream_out_event file_length channel c e) := rfl

theorem stream_out_run_append (file_length channel : Nat) (es1 es2 : List OutEvent)
    (c : OutConfig) :
    stream_out_run file_length channel (es1 ++ es2) c
      = stream_out_run file_length channel es2 (stream_out_run file_length channel es1 c) := by
  simp [stream_out_run, List.foldl_append]

/-- Once the cancellation flag is set and the writer is not inside a write, it
issues no further transport call. -/
theorem stream_out_cancelled_silent (file_length channel : Nat) :
    ∀ (evs : List OutEvent) (c : OutConfig), c.g.do_exit = true → c.s.pc ≠ OutPC.write →
      (stream_out_run file_length channel evs c).calls = c.calls ∧
        (stream_out_run file_length channel evs c).g.do_exit = true := by
  intro evs
  induction evs with
  | nil => intro c h _; exact ⟨rfl, h⟩
  | cons e es ih =>
    intro c hflag hpc
    rw [stream_out_run_cons]
    cases e with
    | sigint =>
      have := ih (stream_out_event file_length channel c OutEvent.sigint)
        (by simp [stream_out_event, sig_hdlr]) (by simpa [stream_out_event] using hpc)
      simpa [stream_out_event] using this
    | step inp =>
      have hstep : (stream_out_event file_length channel c (OutEvent.step inp)).calls = c.calls ∧
          (stream_out_event file_length channel c (OutEvent.step inp)).g.do_exit = true ∧
          (stream_out_event file_length channel c (OutEvent.step inp)).s.pc ≠ OutPC.write := by
        cases hp : c.s.pc with
        | write => exact absurd hp hpc
        | loop => simp [stream_out_event, stream_out_step, hp, hflag]
        | stopped => simp [stream_out_event, stream_out_step, hp, hflag]
      have := ih _ hstep.2.1 hstep.2.2
      rw [this.1, hstep.1]
      exact ⟨rfl, this.2⟩

/-- C7: a write of `stream_out` that fails while the cancellation flag is
unset. (a) On `FT_TIMEOUT` the step changes nothing (same buffer, same length,
same position in the source, same tally, same counters, flag still unset) and
the writer stands at the call again, so its next step issues the same write.
(b) On any other failure the flag is set and no write is ever issued again. -/
theorem stream_out_retry_policy (file_length channel : Nat) (g : Globals) (s : OutState)
    (hpc : s.pc = OutPC.write) (hflag : g.do_exit = false) :
    (∀ inp : OutInput, inp.status = FT_STATUS.FT_TIMEOUT →
        stream_out_step file_length channel inp g s
          = (g, s, some { channel := channel, data := s.buf.take s.len, len := s.len }) ∧
        ∀ inp2 : OutInput, (stream_out_step file_length channel inp2 g s).2.2
          = some { channel := channel, data := s.buf.take s.len, len := s.len }) ∧
    (∀ (inp : OutInput) (code : Nat), inp.status = FT_STATUS.FT_OTHER code →
        (stream_out_step file_length channel inp g s).1.do_exit = true ∧
        (stream_out_step file_length channel inp g s).2.1.pc = OutPC.loop ∧
        ∀ evs : List OutEvent,
          (stream_out_run file_length channel evs
            { g := (stream_out_step file_length channel inp g s).1,
              s := (stream_out_step file_length channel inp g s).2.1,
              calls := [] }).calls = []) := by
  constructor
  · intro inp hto
    constructor
    · simp [stream_out_step, hpc, hflag, hto]
    · intro inp2
      unfold stream_out_step
      simp only [hpc]
      split_ifs <;> rfl
  · intro inp code hst
    have h1 : (stream_out_step file_length channel inp g s).1.do_exit = true := by
      simp [stream_out_step, hpc, hflag, hst]
    have h2 : (stream_out_step file_length channel inp g s).2.1.pc = OutPC.loop := by
      simp [stream_out_step, hpc, hflag, hst]
    refine ⟨h1, h2, fun evs => ?_⟩
    exact (stream_out_cancelled_silent file_length channel evs _ h1 (by simp [h2])).1

/-! ## The writer when the source cannot be opened -/

theorem toSizeT_toInt_of_lt (n : Nat) (h : n < 2 ^ 31) : toSizeT (toInt n) = n := by
  unfold toSizeT toInt
  have h1 : ((n : Int) + 2 ^ 31) % 2 ^ 32 = (n : Int) + 2 ^ 31 := by
    apply Int.emod_eq_of_lt <;> omega
  rw [h1]
  have h2 : (n : Int) + 2 ^ 31 - 2 ^ 31 = (n : Int) := by omega
  rw [h2]
  have h3 : (n : Int) % 2 ^ 64 = (n : Int) := by
    apply Int.emod_eq_of_lt <;> omega
  rw [h3, Int.toNat_ofNat]

/-- C9 (what the code does): when the source cannot be opened and
`file_length > 0`, `stream_out` does not return. However many steps it takes
without a `SIGINT`, it is still at the head of its loop with the cancellation
flag unset, having sent nothing and issued no write: only cancellation ends
it. -/
theorem stream_out_open_failure_spins (file_length channel : Nat) (buf0 : List Byte)
    (g : Globals) (evs : List OutEvent) (hlen : 0 < file_length) (hflag : g.do_exit = false)
    (hns : out_no_sigint evs = true) :
    (stream_out_run file_length channel evs
        { g := g, s := stream_out_begin none buf0, calls := [] }).s
        = { pc := OutPC.loop, src := IFStream.openFile none, buf := buf0, len := 0, total := 0 } ∧
      (stream_out_run file_length channel evs
        { g := g, s := stream_out_begin none buf0, calls := [] }).calls = [] ∧
      (stream_out_run file_length channel evs
        { g := g, s := stream_out_begin none buf0, calls := [] }).g.do_exit = false := by
  have key : ∀ (evs : List OutEvent) (c : OutConfig), out_no_sigint evs = true →
      c.g.do_exit = false →
      c.s = { pc := OutPC.loop, src := IFStream.openFile none, buf := buf0, len := 0,
              total := 0 } →
      (stream_out_run file_length channel evs c).s = c.s ∧
        (stream_out_run file_length channel evs c).calls = c.calls ∧
        (stream_out_run file_length channel evs c).g.do_exit = false := by
    intro evs
    induction evs with
    | nil => intro c _ hf _; exact ⟨rfl, rfl, hf⟩
    | cons e es ih =>
      intro c hns hf hs
      rw [stream_out_run_cons]
      cases e with
      | sigint => simp [out_no_sigint] at hns
      | step inp =>
        have hz : toSizeT (toInt 0) = 0 := toSizeT_toInt_of_lt 0 (by norm_num)
        have hstep : (stream_out_event file_length channel c (OutEvent.step inp)).s = c.s ∧
            (stream_out_event file_length channel c (OutEvent.step inp)).calls = c.calls ∧
            (stream_out_event file_length channel c (OutEvent.step inp)).g.do_exit = false := by
          simp [stream_out_event, stream_out_step, hs, hf, hlen, IFStream.openFile,
            IFStream.read, hz]
        have := ih (stream_out_event file_length channel c (OutEvent.step inp))
          (by simpa [out_no_sigint] using hns) hstep.2.2 (by rw [hstep.1, hs])
        rw [this.1, this.2.1, hstep.1, hstep.2.1]
        exact ⟨rfl, rfl, this.2.2⟩
  have := key evs { g := g, s := stream_out_begin none buf0, calls := [] } hns hflag rfl
  simpa [stream_out_begin] using this

/-! ## Invariants of the writer -/

theorem read_spec (s : IFStream) (n : Nat) (hpos : s.pos ≤ s.data.length)
    (hf : s.failed = true → s.pos = s.data.length) :
    (s.read n).1.data = s.data ∧
    (s.read n).1.pos = s.pos + (s.read n).2.length ∧
    (s.read n).1.pos ≤ s.data.length ∧
    (s.read n).2.length ≤ n ∧
    ((s.read n).1.failed = false → (s.read n).2.length = n) ∧
    ((s.read n).1.failed = true → (s.read n).1.pos = s.data.length) ∧
    (s.failed = false → (s.read n).2.length = min n (s.data.length - s.pos)) ∧
    (s.read n).2 = (s.data.drop s.pos).take (s.read n).2.length := by
  unfold IFStream.read
  cases hfl : s.failed with
  | true =>
    have := hf hfl
    simp [hfl, this]
  | false =>
    simp only [Bool.false_eq_true, if_false, List.length_take, List.length_drop,
      decide_eq_false_iff_not, decide_eq_true_eq, not_lt]
    refine ⟨?_, ?_, ?_, ?_, ?_, ?_, ?_, ?_⟩
    all_goals first
      | trivial
      | omega
      | skip
    rw [List.take_eq_take]
    simp only [List.length_drop]
    omega

/-- The length the writer ends up with is the number of bytes it read. -/
theorem stream_out_len_eq (s : IFStream) (rnd : Nat) (hr : random_len_range rnd = true)
    (hpos : s.pos ≤ s.data.length) (hf : s.failed = true → s.pos = s.data.length) :
    (if (s.read (planned_len rnd)).1.failed then
        toSizeT (toInt (s.read (planned_len rnd)).2.length)
      else planned_len rnd) = (s.read (planned_len rnd)).2.length := by
  obtain ⟨_, _, _, h4, h5, _, _, _⟩ := read_spec s (planned_len rnd) hpos hf
  have hb := planned_len_range rnd hr
  cases hfl : (s.read (planned_len rnd)).1.failed with
  | true =>
    simp only [if_true]
    apply toSizeT_toInt_of_lt
    have : BUFFER_LEN = 131072 := hb.2.2.2
    have := hb.2.2.1
    omega
  | false =>
    simp only [Bool.false_eq_true, if_false]
    exact (h5 hfl).symm

theorem stream_out_step_chunk_inv (file_length channel : Nat) (inp : OutInput) (g : Globals)
    (s : OutState) (hr : random_len_range inp.rnd = true) (h : OutChunkInv s) :
    OutChunkInv (stream_out_step file_length channel inp g s).2.1 ∧
      (stream_out_step file_length channel inp g s).2.1.src.data = s.src.data := by
  obtain ⟨hpos, hf, hw⟩ := h
  unfold stream_out_step
  cases hpc : s.pc with
  | stopped =>
    simp only []
    exact ⟨⟨hpos, hf, hw⟩, trivial⟩
  | write =>
    simp only []
    split_ifs
    · exact ⟨⟨hpos, hf, by simp⟩, rfl⟩
    · exact ⟨⟨hpos, hf, hw⟩, rfl⟩
    · exact ⟨⟨hpos, hf, by simp⟩, rfl⟩
    · exact ⟨⟨hpos, hf, by simp⟩, rfl⟩
  | loop =>
    simp only []
    by_cases hc : (!g.do_exit && decide (s.total < file_length)) = true
    · rw [if_pos hc]
      obtain ⟨r1, r2, r3, r4, r5, r6, _, r8⟩ := read_spec s.src (planned_len inp.rnd) hpos hf
      have hlen := stream_out_len_eq s.src inp.rnd hr hpos hf
      have hb := planned_len_range inp.rnd hr
      simp only [hlen]
      split_ifs with h0
      · refine ⟨⟨?_, ?_, ?_⟩, r1⟩
        · simp only []; rw [r1]; exact r3
        · simp only []; rw [r1]; exact r6
        · intro _
          simp only []
          refine ⟨by omega, by omega, by omega, ?_, ?_, ?_⟩
          · cases hfl : (s.src.read (planned_len inp.rnd)).1.failed with
            | true => exact Or.inr rfl
            | false =>
              left
              rw [r5 hfl]
              exact hb.1
          · rw [List.take_left, r1, r2, Nat.add_sub_cancel]
            exact r8
          · rw [List.take_left]
      · refine ⟨⟨?_, ?_, by simp⟩, r1⟩
        · simp only []; rw [r1]; exact r3
        · simp only []; rw [r1]; exact r6
    · rw [if_neg hc]
      exact ⟨⟨hpos, hf, by simp⟩, rfl⟩

theorem stream_out_begin_chunk_inv (file : Option File) (buf0 : List Byte) :
    OutChunkInv (stream_out_begin file buf0) := by
  cases file <;> simp [OutChunkInv, stream_out_begin, IFStream.openFile]

theorem stream_out_run_chunk_inv (file_length channel : Nat) :
    ∀ (evs : List OutEvent) (c : OutConfig), out_random_ok evs = true → OutChunkInv c.s →
      OutChunkInv (stream_out_run file_length channel evs c).s ∧
        (stream_out_run file_length channel evs c).s.src.data = c.s.src.data := by
  intro evs
  induction evs with
  | nil => intro c _ h; exact ⟨h, rfl⟩
  | cons e es ih =>
    intro c hr h
    rw [stream_out_run_cons]
    cases e with
    | sigint =>
      have := ih (stream_out_event file_length channel c OutEvent.sigint)
        (by simpa [out_random_ok] using hr) (by simpa [stream_out_event] using h)
      simpa [stream_out_event] using this
    | step inp =>
      simp only [out_random_ok, Bool.and_eq_true] at hr
      have hs := stream_out_step_chunk_inv file_length channel inp c.g c.s hr.1 h
      have := ih (stream_out_event file_length channel c (OutEvent.step inp)) hr.2
        (by simpa [stream_out_event] using hs.1)
      refine ⟨this.1, ?_⟩
      rw [this.2]
      simpa [stream_out_event] using hs.2

theorem stream_in_len_bounds (file_length total rnd : Nat) (hr : random_len_range rnd = true)
    (ht : total < file_length) :
    1 ≤ stream_in_len file_length total rnd ∧
      stream_in_len file_length total rnd ≤ BUFFER_LEN ∧
      stream_in_len file_length total rnd ≤ file_length - total ∧
      (stream_in_len file_length total rnd % 4 = 0 ∨
        stream_in_len file_length total rnd = file_length - total) := by
  have hb := planned_len_range rnd hr
  unfold stream_in_len
  simp only []
  split_ifs with h
  · refine ⟨by omega, by omega, le_refl _, Or.inr rfl⟩
  · exact ⟨by omega, hb.2.2.1, by omega, Or.inl hb.1⟩

/-- C5 (as amended): every transport call asks for at least one byte and at
most `BUFFER_LEN`; a read never asks for more than the bytes still to receive.
The size is a multiple of 4 except when the reader clamped it to the bytes
still to receive, and except when the writer shortened the chunk on a short
read, in which case the source has been read to its end. -/
theorem chunk_request_bounds (file_length channel : Nat) :
    (∀ (inp : InInput) (g : Globals) (s : InState) (call : ReadCall),
        random_len_range inp.rnd = true →
        (stream_in_step file_length channel inp g s).2.2 = some call →
        1 ≤ call.len ∧ call.len ≤ BUFFER_LEN ∧ call.len ≤ file_length - s.total ∧
          (call.len % 4 = 0 ∨ call.len = file_length - s.total)) ∧
    (∀ (file : Option File) (buf0 : List Byte) (g : Globals) (evs : List OutEvent)
        (inp : OutInput) (call : WriteCall),
        out_random_ok evs = true →
        (stream_out_step file_length channel inp
          (stream_out_run file_length channel evs
            { g := g, s := stream_out_begin file buf0, calls := [] }).g
          (stream_out_run file_length channel evs
            { g := g, s := stream_out_begin file buf0, calls := [] }).s).2.2 = some call →
        1 ≤ call.len ∧ call.len ≤ BUFFER_LEN ∧ call.data.length = call.len ∧
          (call.len % 4 = 0 ∨
            ((stream_out_run file_length channel evs
                { g := g, s := stream_out_begin file buf0, calls := [] }).s.src.failed = true ∧
              (stream_out_run file_length channel evs
                { g := g, s := stream_out_begin file buf0, calls := [] }).s.src.pos
              = (stream_out_run file_length channel evs
                { g := g, s := stream_out_begin file buf0, calls := [] }).s.src.data.length))) := by
  constructor
  · intro inp g s call hr hcall
    unfold stream_in_step at hcall
    cases hpc : s.pc with
    | stopped => rw [hpc] at hcall; simp at hcall
    | loop =>
      rw [hpc] at hcall
      simp only [] at hcall
      by_cases hc : (!g.do_exit && decide (s.total < file_length)) = true
      · rw [if_pos hc] at hcall
        have ht : s.total < file_length := by
          simp only [Bool.and_eq_true, decide_eq_true_eq] at hc
          exact hc.2
        have hcl : call.len = stream_in_len file_length s.total inp.rnd := by
          split_ifs at hcall <;>
            (simp only [Option.some.injEq] at hcall; rw [← hcall])
        rw [hcl]
        exact stream_in_len_bounds file_length s.total inp.rnd hr ht
      · rw [if_neg hc] at hcall
        simp at hcall
  · intro file buf0 g evs inp call hr hcall
    have hinv := (stream_out_run_chunk_inv file_length channel evs
      { g := g, s := stream_out_begin file buf0, calls := [] } hr
      (stream_out_begin_chunk_inv file buf0)).1
    generalize stream_out_run file_length channel evs
      { g := g, s := stream_out_begin file buf0, calls := [] } = c at hcall hinv ⊢
    obtain ⟨_, hf, hw⟩ := hinv
    unfold stream_out_step at hcall
    cases hpc : c.s.pc with
    | stopped => rw [hpc] at hcall; simp at hcall
    | loop =>
      rw [hpc] at hcall
      simp only [] at hcall
      split_ifs at hcall
    | write =>
      rw [hpc] at hcall
      simp only [] at hcall
      obtain ⟨w1, w2, _, w4, _, w6⟩ := hw hpc
      have hcl : call = { channel := channel, data := c.s.buf.take c.s.len, len := c.s.len } := by
        split_ifs at hcall <;>
          (simp only [Option.some.injEq] at hcall; rw [← hcall])
      rw [hcl]
      refine ⟨w1, w2, w6, ?_⟩
      rcases w4 with h4 | h4
      · exact Or.inl h4
      · exact Or.inr ⟨h4, hf h4⟩

/-- C5 (counterexample): with `file_length = 1` the reader asks for 1 byte
and the writer, on a one-byte source, writes 1 byte: neither size is a
multiple of 4, although both draws of `random_len` are in range. -/
theorem chunk_request_unaligned :
    ¬ (∀ call : ReadCall,
        (stream_in_step 1 0 { rnd := 1, status := FT_STATUS.FT_OK, data := [] }
          Globals.start stream_in_begin).2.2 = some call →
        1 ≤ call.len ∧ call.len ≤ BUFFER_LEN ∧ call.len % 4 = 0 ∧ call.len ≤ 1 - 0) ∧
    ¬ (∀ call : WriteCall,
        call ∈ (stream_out_run 1 0
          [OutEvent.step { rnd := 1, status := FT_STATUS.FT_OK, count := 0 },
           OutEvent.step { rnd := 1, status := FT_STATUS.FT_OK, count := 1 }]
          { g := Globals.start, s := stream_out_begin (some [7]) [], calls := [] }).calls →
        1 ≤ call.len ∧ call.len ≤ BUFFER_LEN ∧ call.len % 4 = 0) := by
  constructor
  · intro h
    have := h { channel := 0, len := 1 } (by decide)
    simp at this
  · intro h
    have := h { channel := 0, data := [7], len := 1 } (by decide)
    simp at this

/-! ## Tallies at loop exit -/

theorem stream_out_event_tally_inv (file_length channel : Nat) (c : OutConfig) (e : OutEvent)
    (hr : out_random_ok [e] = true) (ht : out_transport_ok file_length channel [e] c = true)
    (hc : OutChunkInv c.s) (h : OutTallyInv file_length c.g c.s) :
    OutTallyInv file_length (stream_out_event file_length channel c e).g
      (stream_out_event file_length channel c e).s := by
  obtain ⟨hpos, hf, _⟩ := hc
  obtain ⟨t1, t2, t3⟩ := h
  cases e with
  | sigint =>
    refine ⟨t1, t2, fun _ => Or.inl ?_⟩
    simp [stream_out_event, sig_hdlr]
  | step inp =>
    simp only [out_random_ok, Bool.and_true] at hr
    simp only [out_transport_ok, Bool.and_true, Bool.or_eq_true, bne_iff_ne, ne_eq,
      decide_eq_true_eq] at ht
    simp only [stream_out_event, stream_out_step]
    cases hpc : c.s.pc with
    | stopped =>
      simp only []
      exact ⟨t1, t2, t3⟩
    | write =>
      have hcnt : inp.count ≤ c.s.len := by
        rcases ht with h | h
        · exact absurd hpc h
        · exact h
      have := t1 hpc
      simp only []
      split_ifs with h1 h2 h3
      · exact ⟨by simp, t2, fun _ => Or.inl h2⟩
      · exact ⟨t1, t2, by simp [hpc]⟩
      · refine ⟨by simp, ?_, by simp⟩
        show c.s.total + inp.count ≤ c.s.src.pos
        omega
      · refine ⟨by simp, ?_, by simp⟩
        show c.s.total + inp.count ≤ c.s.src.pos
        omega
    | loop =>
      simp only []
      by_cases hcond : (!c.g.do_exit && decide (c.s.total < file_length)) = true
      · rw [if_pos hcond]
        obtain ⟨_, r2, _, _, _, _, _, _⟩ := read_spec c.s.src (planned_len inp.rnd) hpos hf
        have hlen := stream_out_len_eq c.s.src inp.rnd hr hpos hf
        simp only [hlen]
        split_ifs with h0
        · refine ⟨fun _ => ?_, ?_, by simp⟩
          · show c.s.total + (c.s.src.read (planned_len inp.rnd)).2.length
              ≤ (c.s.src.read (planned_len inp.rnd)).1.pos
            omega
          · show c.s.total ≤ (c.s.src.read (planned_len inp.rnd)).1.pos
            omega
        · refine ⟨by simp, ?_, by simp⟩
          show c.s.total + 0 ≤ (c.s.src.read (planned_len inp.rnd)).1.pos
          omega
      · rw [if_neg hcond]
        refine ⟨by simp, t2, fun _ => ?_⟩
        simp only [Bool.and_eq_true, Bool.not_eq_true', decide_eq_true_eq, not_and,
          not_lt] at hcond
        cases hd : c.g.do_exit with
        | true => exact Or.inl rfl
        | false => exact Or.inr (hcond hd)

theorem stream_out_run_tally_inv (file_length channel : Nat) :
    ∀ (evs : List OutEvent) (c : OutConfig), out_random_ok evs = true →
      out_transport_ok file_length channel evs c = true →
      OutChunkInv c.s → OutTallyInv file_length c.g c.s →
      OutTallyInv file_length (stream_out_run file_length channel evs c).g
        (stream_out_run file_length channel evs c).s := by
  intro evs
  induction evs with
  | nil => intro c _ _ _ h; exact h
  | cons e es ih =>
    intro c hr ht hc h
    rw [stream_out_run_cons]
    have hr1 : out_random_ok [e] = true ∧ out_random_ok es = true := by
      cases e <;> simp_all [out_random_ok]
    have ht1 : out_transport_ok file_length channel [e] c = true ∧
        out_transport_ok file_length channel es (stream_out_event file_length channel c e)
          = true := by
      cases e <;> simp_all [out_transport_ok]
    apply ih _ hr1.2 ht1.2
    · have := stream_out_run_chunk_inv file_length channel [e] c hr1.1 hc
      exact this.1
    · exact stream_out_event_tally_inv file_length channel c e hr1.1 ht1.1 hc h

theorem stream_in_run_nil (file_length channel : Nat) (c : InConfig) :
    stream_in_run file_length channel [] c = c := rfl

theorem stream_in_run_cons (file_length channel : Nat) (e : InEvent) (es : List InEvent)
    (c : InConfig) :
    stream_in_run file_length channel (e :: es) c
      = stream_in_run file_length channel es (stream_in_event file_length channel c e) := rfl

theorem stream_in_len_le (file_length total rnd : Nat) :
    stream_in_len file_length total rnd ≤ file_length - total := by
  unfold stream_in_len
  simp only []
  split_ifs <;> omega

theorem stream_in_run_tally_inv (file_length channel : Nat) :
    ∀ (evs : List InEvent) (c : InConfig),
      in_transport_ok file_length channel evs c = true →
      InTallyInv file_length c.g c.s →
      InTallyInv file_length (stream_in_run file_length channel evs c).g
        (stream_in_run file_length channel evs c).s := by
  intro evs
  induction evs with
  | nil => intro c _ h; exact h
  | cons e es ih =>
    intro c ht h
    rw [stream_in_run_cons]
    obtain ⟨h1, h2⟩ := h
    cases e with
    | sigint =>
      simp only [in_transport_ok] at ht
      apply ih _ ht
      exact ⟨h1, fun _ => Or.inl (by simp [stream_in_event, sig_hdlr])⟩
    | step inp =>
      simp only [in_transport_ok, Bool.and_eq_true, decide_eq_true_eq] at ht
      apply ih _ ht.2
      have hle := stream_in_len_le file_length c.s.total inp.rnd
      simp only [stream_in_event, stream_in_step]
      cases hpc : c.s.pc with
      | stopped =>
        simp only []
        exact ⟨h1, h2⟩
      | loop =>
        simp only []
        by_cases hcond : (!c.g.do_exit && decide (c.s.total < file_length)) = true
        · rw [if_pos hcond]
          split_ifs with h0
          · exact ⟨h1, h2⟩
          · refine ⟨?_, by simp [hpc]⟩
            show c.s.total + inp.data.length ≤ file_length
            have := ht.1
            omega
        · rw [if_neg hcond]
          refine ⟨h1, fun _ => ?_⟩
          simp only [Bool.and_eq_true, Bool.not_eq_true', decide_eq_true_eq, not_and,
            not_lt] at hcond
          cases hd : c.g.do_exit with
          | true => exact Or.inl rfl
          | false => exact Or.inr (hcond hd)

/-- C4: when the loop of `stream_out` or of `stream_in` is left with the
cancellation flag unset, the tally equals `file_length`, provided the transport
never reports more bytes than the call asked for and (for the writer) the
source holds `file_length` bytes. -/
theorem tallies_complete (src : File) (file_length channel : Nat) (buf0 : List Byte)
    (g : Globals) :
    (∀ evs : List OutEvent,
        out_random_ok evs = true →
        out_transport_ok src.length channel evs
          { g := g, s := stream_out_begin (some src) buf0, calls := [] } = true →
        (stream_out_run src.length channel evs
          { g := g, s := stream_out_begin (some src) buf0, calls := [] }).s.pc
            = OutPC.stopped →
        (stream_out_run src.length channel evs
          { g := g, s := stream_out_begin (some src) buf0, calls := [] }).g.do_exit = false →
        (stream_out_run src.length channel evs
          { g := g, s := stream_out_begin (some src) buf0, calls := [] }).s.total
            = src.length) ∧
    (∀ evs : List InEvent,
        in_transport_ok file_length channel evs
          { g := g, s := stream_in_begin, calls := [] } = true →
        (stream_in_run file_length channel evs
          { g := g, s := stream_in_begin, calls := [] }).s.pc = InPC.stopped →
        (stream_in_run file_length channel evs
          { g := g, s := stream_in_begin, calls := [] }).g.do_exit = false →
        (stream_in_run file_length channel evs
          { g := g, s := stream_in_begin, calls := [] }).s.total = file_length) := by
  constructor
  · intro evs hr ht hpc hflag
    have hc0 := stream_out_begin_chunk_inv (some src) buf0
    have hc := stream_out_run_chunk_inv src.length channel evs
      { g := g, s := stream_out_begin (some src) buf0, calls := [] } hr hc0
    have hti := stream_out_run_tally_inv src.length channel evs
      { g := g, s := stream_out_begin (some src) buf0, calls := [] } hr ht hc0
      (by simp [OutTallyInv, stream_out_begin, IFStream.openFile])
    obtain ⟨⟨hpos, _, _⟩, hdata⟩ := hc
    obtain ⟨_, t2, t3⟩ := hti
    have hd : (stream_out_run src.length channel evs
        { g := g, s := stream_out_begin (some src) buf0, calls := [] }).s.src.data.length
        = src.length := by
      rw [hdata]; rfl
    rcases t3 hpc with h | h
    · rw [hflag] at h; exact absurd h (by simp)
    · omega
  · intro evs ht hpc hflag
    have hti := stream_in_run_tally_inv file_length channel evs
      { g := g, s := stream_in_begin, calls := [] } ht
      (by simp [InTallyInv, stream_in_begin])
    obtain ⟨t1, t2⟩ := hti
    rcases t2 hpc with h | h
    · rw [hflag] at h; exact absurd h (by simp)
    · omega

/-! ## The exit status of `main` -/

theorem main_run_cons (src : File) (loop_mode : Bool) (e : MainEvent) (es : List MainEvent)
    (c : MainState) :
    main_run src loop_mode (e :: es) c
      = main_run src loop_mode es (main_event src loop_mode c e) := rfl

theorem file_transfer_pass_flag (src : File) (loop_mode : Bool) (c : MainState)
    (channel : Nat) (dest : File) :
    (file_transfer_pass src loop_mode c channel dest).g.do_exit = c.g.do_exit := by
  unfold file_transfer_pass
  split
  · split
    · simp only []
      split_ifs <;> rfl
    · rfl
  · rfl

theorem main_event_failed_iff (src : File) (loop_mode : Bool) (c : MainState) (e : MainEvent)
    (h : c.g.transfer_failed = true ↔ ∃ ch, (ch, false) ∈ c.verdicts) :
    (main_event src loop_mode c e).g.transfer_failed = true ↔
      ∃ ch, (ch, false) ∈ (main_event src loop_mode c e).verdicts := by
  cases e with
  | sigint => simpa [main_event, sig_hdlr] using h
  | pass channel dest =>
    simp only [main_event, file_transfer_pass]
    split
    · split
      · rename_i v _
        simp only []
        cases hv : v.result with
        | true =>
          simp only [Bool.not_true, Bool.false_eq_true, if_false, List.mem_append,
            List.mem_singleton, Prod.mk.injEq, and_false, or_false]
          exact h
        | false =>
          simp only [Bool.not_false, if_true, List.mem_append, List.mem_singleton,
            Prod.mk.injEq, and_true, true_iff]
          exact ⟨channel, Or.inr rfl⟩
      · exact h
    · exact h

theorem main_event_failed_mono (src : File) (loop_mode : Bool) (c : MainState) (e : MainEvent)
    (h : c.g.transfer_failed = true) :
    (main_event src loop_mode c e).g.transfer_failed = true := by
  cases e with
  | sigint => simpa [main_event, sig_hdlr] using h
  | pass channel dest =>
    simp only [main_event, file_transfer_pass]
    split
    · split
      · simp only []
        split_ifs
        · rfl
        · exact h
      · exact h
    · exact h

theorem main_run_failed_iff (src : File) (loop_mode : Bool) :
    ∀ (evs : List MainEvent) (c : MainState),
      (c.g.transfer_failed = true ↔ ∃ ch, (ch, false) ∈ c.verdicts) →
      ((main_run src loop_mode evs c).g.transfer_failed = true ↔
        ∃ ch, (ch, false) ∈ (main_run src loop_mode evs c).verdicts) := by
  intro evs
  induction evs with
  | nil => intro c h; exact h
  | cons e es ih =>
    intro c h
    rw [main_run_cons]
    exact ih _ (main_event_failed_iff src loop_mode c e h)

theorem compare_content_total (A B : File) : ∃ v, compare_content A B = some v := by
  by_cases hl : A.length = B.length
  · by_cases he : A = B
    · subst he
      have h := compare_loop_same A A.length (A.length + 1) 0 (Nat.zero_le _) (by omega)
      simp only [Nat.sub_zero] at h
      refine ⟨{ result := true, report := Report.binarySame }, ?_⟩
      unfold compare_content
      simp only [IFStream.openFile, ne_eq, not_true_eq_false, if_false]
      exact h
    · obtain ⟨pre, x, y, sa, sb, h1, h2, h3, h4⟩ := exists_first_diff A B hl he
      have hc := compare_content_first_diff pre sa sb x y h3 h4 pre.length _ rfl rfl
      rw [← h1, ← h2] at hc
      exact ⟨_, hc⟩
  · refine ⟨{ result := false, report := Report.sizeNotSame A.length B.length }, ?_⟩
    unfold compare_content
    simp only [IFStream.openFile, ne_eq, hl, not_false_eq_true, if_true]

/-- A pass of a running `file_transfer` thread calls `compare_content` on the
source and the destination, and sets `transfer_failed` exactly when the call
returns false. -/
theorem file_transfer_pass_running (src : File) (loop_mode : Bool) (c : MainState)
    (channel : Nat) (dest : File) (hrun : c.threads.get? channel = some FtPC.running) :
    ∃ v, compare_content src dest = some v ∧
      (file_transfer_pass src loop_mode c channel dest).g.transfer_failed
        = (c.g.transfer_failed || !v.result) ∧
      (file_transfer_pass src loop_mode c channel dest).verdicts
        = c.verdicts ++ [(channel, v.result)] := by
  obtain ⟨v, hv⟩ := compare_content_total src dest
  refine ⟨v, hv, ?_, ?_⟩
  · simp only [file_transfer_pass, hrun, hv]
    cases v.result <;> simp
  · simp only [file_transfer_pass, hrun, hv]

theorem file_transfer_pass_idle (src : File) (loop_mode : Bool) (c : MainState)
    (channel : Nat) (dest : File) (hrun : c.threads.get? channel ≠ some FtPC.running) :
    file_transfer_pass src loop_mode c channel dest = c := by
  unfold file_transfer_pass
  split
  · rename_i h
    exact absurd h hrun
  · rfl

theorem main_event_failed_step (src : File) (loop_mode : Bool) (c : MainState) (e : MainEvent) :
    (main_event src loop_mode c e).g.transfer_failed = true ↔
      c.g.transfer_failed = true ∨
        ∃ channel dest v, e = MainEvent.pass channel dest ∧
          c.threads.get? channel = some FtPC.running ∧
          compare_content src dest = some v ∧ v.result = false := by
  cases e with
  | sigint => simp [main_event, sig_hdlr]
  | pass channel dest =>
    simp only [main_event]
    by_cases hrun : c.threads.get? channel = some FtPC.running
    · obtain ⟨v, hv, htf, _⟩ := file_transfer_pass_running src loop_mode c channel dest hrun
      rw [htf]
      constructor
      · intro h
        simp only [Bool.or_eq_true, Bool.not_eq_true'] at h
        rcases h with h | h
        · exact Or.inl h
        · exact Or.inr ⟨channel, dest, v, rfl, hrun, hv, h⟩
      · rintro (h | ⟨ch2, d2, v2, he, _, hv2, hr2⟩)
        · simp [h]
        · simp only [MainEvent.pass.injEq] at he
          obtain ⟨rfl, rfl⟩ := he
          rw [hv] at hv2
          simp only [Option.some.injEq] at hv2
          subst hv2
          simp [hr2]
    · rw [file_transfer_pass_idle src loop_mode c channel dest hrun]
      constructor
      · exact fun h => Or.inl h
      · rintro (h | ⟨ch2, d2, v2, he, hr, _, _⟩)
        · exact h
        · simp only [MainEvent.pass.injEq] at he
          obtain ⟨rfl, rfl⟩ := he
          exact absurd hr hrun

theorem main_run_failed_iff_pass (src : File) (loop_mode : Bool) :
    ∀ (evs : List MainEvent) (c : MainState),
      (main_run src loop_mode evs c).g.transfer_failed = true ↔
        c.g.transfer_failed = true ∨
          ∃ pre channel dest post v, evs = pre ++ MainEvent.pass channel dest :: post ∧
            (main_run src loop_mode pre c).threads.get? channel = some FtPC.running ∧
            compare_content src dest = some v ∧ v.result = false := by
  intro evs
  induction evs with
  | nil =>
    intro c
    constructor
    · exact fun h => Or.inl h
    · rintro (h | ⟨pre, _, _, _, _, he, _⟩)
      · exact h
      · simp at he
  | cons e es ih =>
    intro c
    rw [main_run_cons, ih, main_event_failed_step]
    constructor
    · rintro ((h | ⟨ch, d, v, he, hr, hv, hres⟩) | ⟨pre, ch, d, post, v, he, hr, hv, hres⟩)
      · exact Or.inl h
      · exact Or.inr ⟨[], ch, d, es, v, by rw [he]; rfl, hr, hv, hres⟩
      · exact Or.inr ⟨e :: pre, ch, d, post, v, by rw [he]; rfl, hr, hv, hres⟩
    · rintro (h | ⟨pre, ch, d, post, v, he, hr, hv, hres⟩)
      · exact Or.inl (Or.inl h)
      · cases pre with
        | nil =>
          simp only [List.nil_append, List.cons.injEq] at he
          exact Or.inl (Or.inr ⟨ch, d, v, he.1, hr, hv, hres⟩)
        | cons e2 pre2 =>
          simp only [List.cons_append, List.cons.injEq] at he
          obtain ⟨rfl, rfl⟩ := he
          exact Or.inr ⟨pre2, ch, d, post, v, rfl, hr, hv, hres⟩

/-- C10: once the sessions have been started with `transfer_failed` still
false (its initial value), the status `main` returns is non-zero exactly when
some pass of some running `file_transfer` thread called `compare_content` on
the source and its destination and the call returned false. A pass of a
running thread does call `compare_content` and sets `transfer_failed` exactly
when the result is false; no event resets `transfer_failed`, and a
verification pass, failed or not, leaves the cancellation flag as it was. -/
theorem main_exit_status (src : File) (loop_mode : Bool) (ch_cnt : Nat) (g : Globals)
    (evs : List MainEvent) (status : Int) (hstart : g.transfer_failed = false)
    (hret : main_return (main_run src loop_mode evs (main_sessions_start ch_cnt g))
      = some status) :
    (status ≠ 0 ↔
      ∃ pre channel dest post v, evs = pre ++ MainEvent.pass channel dest :: post ∧
        (main_run src loop_mode pre (main_sessions_start ch_cnt g)).threads.get? channel
          = some FtPC.running ∧
        compare_content src dest = some v ∧ v.result = false) ∧
    (status ≠ 0 ↔
      ∃ ch, (ch, false) ∈ (main_run src loop_mode evs (main_sessions_start ch_cnt g)).verdicts) ∧
    (∀ (c : MainState) (channel : Nat) (dest : File),
      c.threads.get? channel = some FtPC.running →
      ∃ v, compare_content src dest = some v ∧
        (file_transfer_pass src loop_mode c channel dest).g.transfer_failed
          = (c.g.transfer_failed || !v.result) ∧
        (file_transfer_pass src loop_mode c channel dest).verdicts
          = c.verdicts ++ [(channel, v.result)]) ∧
    Globals.start.transfer_failed = false ∧
    (∀ (c : MainState) (e : MainEvent), c.g.transfer_failed = true →
      (main_event src loop_mode c e).g.transfer_failed = true) ∧
    (∀ (c : MainState) (channel : Nat) (dest : File),
      (file_transfer_pass src loop_mode c channel dest).g.do_exit = c.g.do_exit) := by
  have hstat : status ≠ 0 ↔
      (main_run src loop_mode evs (main_sessions_start ch_cnt g)).g.transfer_failed = true := by
    unfold main_return at hret
    by_cases hall : ((main_run src loop_mode evs (main_sessions_start ch_cnt g)).threads.all
        fun t => t == FtPC.returned) = true
    · rw [if_pos hall] at hret
      cases hf : (main_run src loop_mode evs
          (main_sessions_start ch_cnt g)).g.transfer_failed with
      | true =>
        rw [hf] at hret
        simp only [if_true, Option.some.injEq] at hret
        rw [← hret]
        simp
      | false =>
        rw [hf] at hret
        simp only [Bool.false_eq_true, if_false, Option.some.injEq] at hret
        rw [← hret]
        simp
    · rw [if_neg hall] at hret
      exact absurd hret (by simp)
  refine ⟨?_, ?_, file_transfer_pass_running src loop_mode, rfl,
    main_event_failed_mono src loop_mode, file_transfer_pass_flag src loop_mode⟩
  · rw [hstat, main_run_failed_iff_pass src loop_mode evs (main_sessions_start ch_cnt g)]
    have h0 : (main_sessions_start ch_cnt g).g.transfer_failed = false := hstart
    rw [h0]
    simp
  · rw [hstat]
    exact main_run_failed_iff src loop_mode evs (main_sessions_start ch_cnt g)
      (by simp [main_sessions_start, hstart])

/-! ## Round trip over the loopback transport -/

theorem session_run_cons (file_length channel : Nat) (a : Act) (acts : List Act) (c : Session) :
    session_run file_length channel (a :: acts) c
      = session_run file_length channel acts (loopback_step file_length channel c a) := rfl

theorem session_run_append (file_length channel : Nat) (acts1 acts2 : List Act) (c : Session) :
    session_run file_length channel (acts1 ++ acts2) c
      = session_run file_length channel acts2 (session_run file_length channel acts1 c) := by
  simp [session_run, List.foldl_append]

theorem take_append_drop_length_take (m : Nat) (l : List Byte) :
    l.take m ++ l.drop (l.take m).length = l := by
  rw [List.length_take]
  by_cases h : m ≤ l.length
  · rw [Nat.min_eq_left h, List.take_append_drop]
  · have h2 : l.length ≤ m := by omega
    rw [Nat.min_eq_right h2, List.take_of_length_le h2, List.drop_of_length_le (le_refl _),
      List.append_nil]

theorem loopback_writer_inv (src : File) (channel rnd : Nat) (c : Session)
    (hr : random_len_range rnd = true) (h : SessionInv src c) :
    SessionInv src (loopback_step src.length channel c (Act.writer rnd)) := by
  obtain ⟨hflag, hdata, hchunk, hw, hnw, hst, hfifo, hrt, hrs⟩ := h
  have hci := stream_out_step_chunk_inv src.length channel
    { rnd := rnd, status := FT_STATUS.FT_OK, count := c.w.len } c.g c.w hr hchunk
  obtain ⟨hpos, hf, hwr⟩ := hchunk
  simp only [loopback_step]
  refine ⟨?_, ?_, hci.1, ?_⟩
  · -- the flag
    unfold stream_out_step
    cases hpc : c.w.pc <;> simp only [] <;> (try split_ifs) <;> first | exact hflag | simp_all
  · rw [hci.2]; exact hdata
  · unfold stream_out_step
    cases hpc : c.w.pc with
    | stopped =>
      simp only [List.append_nil]
      exact ⟨hw, hnw, hst, hfifo, hrt, hrs⟩
    | write =>
      obtain ⟨w1, w2, w3, w4, w5, w6⟩ := hwr hpc
      have hsum := hw hpc
      simp only [ne_eq, not_true_eq_false, if_false]
      refine ⟨by simp, fun _ => hsum, by simp, ?_, hrt, hrs⟩
      show c.r.dest ++ (c.fifo ++ c.w.buf.take c.w.len) = src.take (c.w.total + c.w.len)
      rw [← List.append_assoc, hfifo, w5, List.take_add, hdata]
      have : c.w.src.pos - c.w.len = c.w.total := by omega
      rw [this]
    | loop =>
      have htp : c.w.total = c.w.src.pos := hnw (by simp [hpc])
      simp only []
      by_cases hcond : (!c.g.do_exit && decide (c.w.total < src.length)) = true
      · rw [if_pos hcond]
        obtain ⟨_, r2, _, _, _, _, _, _⟩ := read_spec c.w.src (planned_len rnd) hpos hf
        have hlen := stream_out_len_eq c.w.src rnd hr hpos hf
        simp only [hlen]
        split_ifs with h0
        · simp only [List.append_nil]
          refine ⟨fun _ => ?_, by simp, by simp, hfifo, hrt, hrs⟩
          show c.w.total + (c.w.src.read (planned_len rnd)).2.length
            = (c.w.src.read (planned_len rnd)).1.pos
          omega
        · simp only [List.append_nil]
          refine ⟨by simp, fun _ => ?_, by simp, ?_, hrt, hrs⟩
          · show c.w.total + 0 = (c.w.src.read (planned_len rnd)).1.pos
            omega
          · show c.r.dest ++ c.fifo = src.take (c.w.total + 0)
            rw [Nat.add_zero]; exact hfifo
      · rw [if_neg hcond]
        simp only [List.append_nil]
        refine ⟨by simp, fun _ => htp, fun _ => ?_, hfifo, hrt, hrs⟩
        simp only [hflag, Bool.not_false, Bool.true_and, decide_eq_true_eq, not_lt] at hcond
        exact hcond

theorem loopback_reader_inv (src : File) (channel rnd want : Nat) (c : Session)
    (h : SessionInv src c) :
    SessionInv src (loopback_step src.length channel c (Act.reader rnd want)) := by
  obtain ⟨hflag, hdata, hchunk, hw, hnw, hst, hfifo, hrt, hrs⟩ := h
  simp only [loopback_step, stream_in_step]
  cases hpc : c.r.pc with
  | stopped =>
    simp only []
    exact ⟨hflag, hdata, hchunk, hw, hnw, hst, hfifo, hrt, hrs⟩
  | loop =>
    simp only []
    by_cases hcond : (!c.g.do_exit && decide (c.r.total < src.length)) = true
    · rw [if_pos hcond]
      split_ifs with h0
      · simp only [h0, List.drop_zero]
        exact ⟨hflag, hdata, hchunk, hw, hnw, hst, hfifo, hrt, hrs⟩
      · refine ⟨hflag, hdata, hchunk, hw, hnw, hst, ?_, ?_, by simp [hpc]⟩
        · simp only []
          rw [List.append_assoc, take_append_drop_length_take]
          exact hfifo
        · simp only [List.length_append]
          omega
    · rw [if_neg hcond]
      simp only []
      refine ⟨hflag, hdata, hchunk, hw, hnw, hst, hfifo, hrt, fun _ => ?_⟩
      simp only [hflag, Bool.not_false, Bool.true_and, decide_eq_true_eq, not_lt] at hcond
      have h1 : (c.r.dest ++ c.fifo).length = (src.take c.w.total).length := by rw [hfifo]
      simp only [List.length_append, List.length_take] at h1
      show c.r.total = src.length
      omega

theorem loopback_step_inv (src : File) (channel : Nat) (c : Session) (a : Act)
    (hv : a.valid = true) (h : SessionInv src c) :
    SessionInv src (loopback_step src.length channel c a) := by
  cases a with
  | writer rnd => exact loopback_writer_inv src channel rnd c hv h
  | reader rnd want => exact loopback_reader_inv src channel rnd want c h

theorem session_run_inv (src : File) (channel : Nat) :
    ∀ (acts : List Act) (c : Session), acts.all Act.valid = true → SessionInv src c →
      SessionInv src (session_run src.length channel acts c) := by
  intro acts
  induction acts with
  | nil => intro c _ h; exact h
  | cons a acts ih =>
    intro c hv h
    rw [session_run_cons]
    simp only [List.all_cons, Bool.and_eq_true] at hv
    exact ih _ hv.2 (loopback_step_inv src channel c a hv.1 h)

theorem session_begin_inv (src : File) (buf0 : List Byte) (g : Globals)
    (hflag : g.do_exit = false) : SessionInv src (session_begin src buf0 g) := by
  refine ⟨hflag, rfl, stream_out_begin_chunk_inv (some src) buf0, ?_, ?_, ?_, ?_, rfl, ?_⟩
  all_goals simp [session_begin, stream_out_begin, stream_in_begin, IFStream.openFile]

theorem loopback_writer_measure (src : File) (channel : Nat) (c : Session) (a : Act)
    (hv : a.valid = true) (h : SessionInv src c) :
    out_measure src.length (loopback_step src.length channel c a).w
      ≤ out_measure src.length c.w - (if a.isWriter = true then 1 else 0) := by
  obtain ⟨hflag, hdata, hchunk, hw, hnw, hst, hfifo, hrt, hrs⟩ := h
  obtain ⟨hpos, hf, hwr⟩ := hchunk
  have hL : c.w.src.data.length = src.length := by rw [hdata]
  cases a with
  | reader rnd want =>
    simp only [loopback_step, Act.isWriter, Bool.false_eq_true, if_false, Nat.sub_zero]
    exact le_refl _
  | writer rnd =>
    simp only [Act.valid] at hv
    simp only [loopback_step, Act.isWriter, if_true, stream_out_step]
    cases hpc : c.w.pc with
    | stopped =>
      simp only [out_measure, hpc]
      exact Nat.zero_le _
    | write =>
      obtain ⟨w1, _, _, _, _, _⟩ := hwr hpc
      have hsum := hw hpc
      simp only [ne_eq, not_true_eq_false, if_false, out_measure, hpc]
      omega
    | loop =>
      have htp : c.w.total = c.w.src.pos := hnw (by simp [hpc])
      simp only []
      by_cases hcond : (!c.g.do_exit && decide (c.w.total < src.length)) = true
      · rw [if_pos hcond]
        have hlt : c.w.total < src.length := by
          simp only [Bool.and_eq_true, decide_eq_true_eq] at hcond
          exact hcond.2
        have hnf : c.w.src.failed = false := by
          cases hfl : c.w.src.failed with
          | false => rfl
          | true => have := hf hfl; omega
        obtain ⟨_, _, _, _, _, _, r7, _⟩ := read_spec c.w.src (planned_len rnd) hpos hf
        have hcnt := r7 hnf
        have hb := planned_len_range rnd hv
        have hlen := stream_out_len_eq c.w.src rnd hv hpos hf
        simp only [hlen]
        split_ifs with h0
        · simp only [out_measure, hpc]
          omega
        · exfalso
          apply h0
          omega
      · rw [if_neg hcond]
        simp only [out_measure]
        exact Nat.zero_le _

theorem session_run_writer_measure (src : File) (channel : Nat) :
    ∀ (acts : List Act) (c : Session), acts.all Act.valid = true → SessionInv src c →
      out_measure src.length (session_run src.length channel acts c).w
        ≤ out_measure src.length c.w - acts.countP Act.isWriter := by
  intro acts
  induction acts with
  | nil => intro c _ _; simp [session_run]
  | cons a acts ih =>
    intro c hv h
    rw [session_run_cons]
    simp only [List.all_cons, Bool.and_eq_true] at hv
    have h1 := loopback_writer_measure src channel c a hv.1 h
    have h2 := ih _ hv.2 (loopback_step_inv src channel c a hv.1 h)
    rw [List.countP_cons]
    omega

theorem out_measure_zero (src : File) (c : Session) (h : SessionInv src c)
    (hz : out_measure src.length c.w = 0) : c.w.pc = OutPC.stopped := by
  obtain ⟨_, hdata, ⟨hpos, _, hwr⟩, hw, _, _, _, _, _⟩ := h
  have hL : c.w.src.data.length = src.length := by rw [hdata]
  cases hpc : c.w.pc with
  | stopped => rfl
  | loop => simp [out_measure, hpc] at hz
  | write =>
    obtain ⟨w1, _, _, _, _, _⟩ := hwr hpc
    have := hw hpc
    simp only [out_measure, hpc] at hz
    omega

theorem loopback_reader_measure (src : File) (channel : Nat) (c : Session) (a : Act)
    (hv : a.valid = true) (h : SessionInv src c) (hws : c.w.pc = OutPC.stopped) :
    (loopback_step src.length channel c a).w.pc = OutPC.stopped ∧
      in_measure src.length (loopback_step src.length channel c a).r
        ≤ in_measure src.length c.r - (if a.isLiveReader = true then 1 else 0) := by
  obtain ⟨hflag, hdata, hchunk, hw, hnw, hst, hfifo, hrt, hrs⟩ := h
  cases a with
  | writer rnd =>
    simp only [loopback_step, stream_out_step, hws, Act.isLiveReader, Bool.false_eq_true,
      if_false, Nat.sub_zero]
    exact ⟨trivial, le_refl _⟩
  | reader rnd want =>
    simp only [Act.valid] at hv
    refine ⟨by simpa [loopback_step] using hws, ?_⟩
    simp only [loopback_step, stream_in_step, Act.isLiveReader]
    cases hpc : c.r.pc with
    | stopped =>
      simp only [in_measure, hpc]
      exact Nat.zero_le _
    | loop =>
      simp only []
      by_cases hcond : (!c.g.do_exit && decide (c.r.total < src.length)) = true
      · rw [if_pos hcond]
        have hlt : c.r.total < src.length := by
          simp only [Bool.and_eq_true, decide_eq_true_eq] at hcond
          exact hcond.2
        have hb := stream_in_len_bounds src.length c.r.total rnd hv hlt
        have h1 : (c.r.dest ++ c.fifo).length = (src.take c.w.total).length := by rw [hfifo]
        have h2 := hst hws
        simp only [List.length_append, List.length_take] at h1
        have hdl : (c.fifo.take (min want (stream_in_len src.length c.r.total rnd))).length
            = min (min want (stream_in_len src.length c.r.total rnd)) c.fifo.length :=
          List.length_take _ _
        by_cases h0 : (c.fifo.take (min want (stream_in_len src.length c.r.total rnd))).length = 0
        · rw [if_pos h0]
          by_cases hlive : decide (1 ≤ want) = true
          · exfalso
            simp only [decide_eq_true_eq] at hlive
            omega
          · rw [if_neg hlive]
            simp only [in_measure, hpc]
            omega
        · rw [if_neg h0]
          simp only [in_measure, hpc]
          show src.length - (c.r.total
              + (c.fifo.take (min want (stream_in_len src.length c.r.total rnd))).length) + 1
            ≤ src.length - c.r.total + 1 - (if decide (1 ≤ want) = true then 1 else 0)
          split_ifs <;> omega
      · rw [if_neg hcond]
        simp only [in_measure]
        exact Nat.zero_le _

theorem session_run_reader_measure (src : File) (channel : Nat) :
    ∀ (acts : List Act) (c : Session), acts.all Act.valid = true → SessionInv src c →
      c.w.pc = OutPC.stopped →
      (session_run src.length channel acts c).w.pc = OutPC.stopped ∧
        in_measure src.length (session_run src.length channel acts c).r
          ≤ in_measure src.length c.r - acts.countP Act.isLiveReader := by
  intro acts
  induction acts with
  | nil => intro c _ _ hws; exact ⟨hws, by simp [session_run]⟩
  | cons a acts ih =>
    intro c hv h hws
    rw [session_run_cons]
    simp only [List.all_cons, Bool.and_eq_true] at hv
    have h1 := loopback_reader_measure src channel c a hv.1 h hws
    have h2 := ih _ hv.2 (loopback_step_inv src channel c a hv.1 h) h1.1
    refine ⟨h2.1, ?_⟩
    rw [List.countP_cons]
    have := h2.2
    omega

theorem in_measure_le (file_length : Nat) (s : InState) :
    in_measure file_length s ≤ file_length + 1 := by
  unfold in_measure
  cases s.pc <;> simp only [] <;> omega

theorem in_measure_zero (file_length : Nat) (s : InState)
    (hz : in_measure file_length s = 0) : s.pc = InPC.stopped := by
  cases hpc : s.pc with
  | stopped => rfl
  | loop => simp [in_measure, hpc] at hz

theorem compare_content_self (A : File) :
    compare_content A A = some { result := true, report := Report.binarySame } := by
  have h := compare_loop_same A A.length (A.length + 1) 0 (Nat.zero_le _) (by omega)
  simp only [Nat.sub_zero] at h
  unfold compare_content
  simp only [IFStream.openFile, ne_eq, not_true_eq_false, if_false]
  exact h

theorem session_joined_dest (src : File) (c : Session) (h : SessionInv src c)
    (hj : c.joined = true) : c.r.dest = src := by
  obtain ⟨_, hdata, ⟨hpos, _, _⟩, _, hnw, hst, hfifo, hrt, hrs⟩ := h
  simp only [Session.joined, Bool.and_eq_true, beq_iff_eq] at hj
  have hL : c.w.src.data.length = src.length := by rw [hdata]
  have h1 := hst hj.1
  have h2 := hnw (by simp [hj.1])
  have h3 := hrs hj.2
  have ht : src.take c.w.total = src := List.take_of_length_le (by omega)
  rw [ht] at hfifo
  have h4 : (c.r.dest ++ c.fifo).take c.r.dest.length = src.take c.r.dest.length := by
    rw [hfifo]
  rw [List.take_left] at h4
  rw [h4]
  exact List.take_of_length_le (by omega)

/-- C3: one channel on the lossless loopback transport, the cancellation flag
unset at the start. Under every schedule of the two workers, every sequence of
chunk sizes in the range of `random_len` and every choice of how many of the
available bytes a read returns: the flag stays unset, and once both workers
have returned the destination equals the source, so that `compare_content`
returns true. Both workers do return in every run in which the writer gets
`2 * L + 1` steps and the reader afterwards gets `L + 1` reads for which the
transport is willing to deliver a byte. -/
theorem loopback_round_trip (src : File) (buf0 : List Byte) (g : Globals) (channel : Nat)
    (_hL : 0 < src.length) (hflag : g.do_exit = false) :
    (∀ acts : List Act, acts.all Act.valid = true →
        (session_run src.length channel acts (session_begin src buf0 g)).g.do_exit = false ∧
        ((session_run src.length channel acts (session_begin src buf0 g)).joined = true →
          (session_run src.length channel acts (session_begin src buf0 g)).r.dest = src ∧
          compare_content src
            (session_run src.length channel acts (session_begin src buf0 g)).r.dest
            = some { result := true, report := Report.binarySame })) ∧
    (∀ pre post : List Act, pre.all Act.valid = true → post.all Act.valid = true →
        2 * src.length + 1 ≤ pre.countP Act.isWriter →
        src.length + 1 ≤ post.countP Act.isLiveReader →
        (session_run src.length channel (pre ++ post) (session_begin src buf0 g)).joined
          = true) := by
  have h0 := session_begin_inv src buf0 g hflag
  constructor
  · intro acts hv
    have hinv := session_run_inv src channel acts _ hv h0
    refine ⟨hinv.1, fun hj => ?_⟩
    have hd := session_joined_dest src _ hinv hj
    refine ⟨hd, ?_⟩
    rw [hd]
    exact compare_content_self src
  · intro pre post hv1 hv2 hc1 hc2
    rw [session_run_append]
    have hinv1 := session_run_inv src channel pre _ hv1 h0
    have hm1 := session_run_writer_measure src channel pre _ hv1 h0
    have hinit : out_measure src.length (session_begin src buf0 g).w = 2 * src.length + 1 := by
      simp [out_measure, session_begin, stream_out_begin]
    have hw := out_measure_zero src _ hinv1 (by omega)
    have hm2 := session_run_reader_measure src channel post _ hv2 hinv1 hw
    have hle := in_measure_le src.length
      (session_run src.length channel pre (session_begin src buf0 g)).r
    have hr := in_measure_zero src.length _ (by have := hm2.2; omega :
      in_measure src.length (session_run src.length channel post
        (session_run src.length channel pre (session_begin src buf0 g))).r = 0)
    simp [Session.joined, hm2.1, hr]

/-! ## The theorems at concrete runs -/

/-- The round trip of `sample_src` under `sample_schedule`. -/
theorem loopback_round_trip_witness :
    0 < sample_src.length ∧ Globals.start.do_exit = false ∧
      sample_schedule.all Act.valid = true ∧
      (session_run sample_src.length 0 sample_schedule
        (session_begin sample_src [] Globals.start)).joined = true ∧
      (session_run sample_src.length 0 sample_schedule
        (session_begin sample_src [] Globals.start)).r.dest = sample_src ∧
      compare_content sample_src
        (session_run sample_src.length 0 sample_schedule
          (session_begin sample_src [] Globals.start)).r.dest
        = some { result := true, report := Report.binarySame } :=
  ⟨by decide, rfl, by decide, by decide,
    (((loopback_round_trip sample_src [] Globals.start 0 (by decide) rfl).1
      sample_schedule (by decide)).2 (by decide))⟩

/-- The tallies of the sample runs of both workers reach the five bytes. -/
theorem tallies_complete_witness :
    (out_random_ok sample_out_events = true ∧
      out_transport_ok sample_src.length 0 sample_out_events
        { g := Globals.start, s := stream_out_begin (some sample_src) [], calls := [] } = true ∧
      (stream_out_run sample_src.length 0 sample_out_events
        { g := Globals.start, s := stream_out_begin (some sample_src) [], calls := [] }).s.total
        = sample_src.length) ∧
    (in_transport_ok 5 0 sample_in_events
        { g := Globals.start, s := stream_in_begin, calls := [] } = true ∧
      (stream_in_run 5 0 sample_in_events
        { g := Globals.start, s := stream_in_begin, calls := [] }).s.total = 5) :=
  ⟨⟨by decide, by decide,
      (tallies_complete sample_src 5 0 [] Globals.start).1 sample_out_events (by decide)
        (by decide) (by decide) (by decide)⟩,
    ⟨by decide,
      (tallies_complete sample_src 5 0 [] Globals.start).2 sample_in_events (by decide)
        (by decide) (by decide)⟩⟩

/-- The bounds at a clamped read of one byte and at a full chunk of four bytes. -/
theorem chunk_request_bounds_witness :
    (random_len_range 1 = true ∧
      (1 ≤ 1 ∧ 1 ≤ BUFFER_LEN ∧ 1 ≤ 5 - 4 ∧ (1 % 4 = 0 ∨ 1 = 5 - 4))) ∧
    (out_random_ok [OutEvent.step { rnd := 1, status := FT_STATUS.FT_OK, count := 0 }] = true ∧
      (1 ≤ 4 ∧ 4 ≤ BUFFER_LEN ∧ [1, 2, 3, 4].length = 4)) :=
  ⟨⟨by decide,
      (chunk_request_bounds 5 0).1 { rnd := 1, status := FT_STATUS.FT_OK, data := [] }
        Globals.start { pc := InPC.loop, dest := [1, 2, 3, 4], total := 4 }
        { channel := 0, len := 1 } (by decide) (by decide)⟩,
    ⟨by decide,
      ⟨((chunk_request_bounds 5 0).2 (some sample_src) [] Globals.start
          [OutEvent.step { rnd := 1, status := FT_STATUS.FT_OK, count := 0 }]
          { rnd := 1, status := FT_STATUS.FT_OK, count := 4 }
          { channel := 0, data := [1, 2, 3, 4], len := 4 } (by decide) (by decide)).1,
        ((chunk_request_bounds 5 0).2 (some sample_src) [] Globals.start
          [OutEvent.step { rnd := 1, status := FT_STATUS.FT_OK, count := 0 }]
          { rnd := 1, status := FT_STATUS.FT_OK, count := 4 }
          { channel := 0, data := [1, 2, 3, 4], len := 4 } (by decide) (by decide)).2.1,
        ((chunk_request_bounds 5 0).2 (some sample_src) [] Globals.start
          [OutEvent.step { rnd := 1, status := FT_STATUS.FT_OK, count := 0 }]
          { rnd := 1, status := FT_STATUS.FT_OK, count := 4 }
          { channel := 0, data := [1, 2, 3, 4], len := 4 } (by decide) (by decide)).2.2.1⟩⟩⟩

/-- The retry policy at `sample_out_state`: a timeout and a hard error. -/
theorem stream_out_retry_policy_witness :
    sample_out_state.pc = OutPC.write ∧ Globals.start.do_exit = false ∧
      stream_out_step 5 0 { rnd := 1, status := FT_STATUS.FT_TIMEOUT, count := 0 }
          Globals.start sample_out_state
        = (Globals.start, sample_out_state,
            some { channel := 0, data := [1, 2, 3, 4], len := 4 }) ∧
      (stream_out_step 5 0 { rnd := 1, status := FT_STATUS.FT_OTHER 3, count := 2 }
          Globals.start sample_out_state).1.do_exit = true :=
  ⟨rfl, rfl,
    ((stream_out_retry_policy 5 0 Globals.start sample_out_state rfl rfl).1
      { rnd := 1, status := FT_STATUS.FT_TIMEOUT, count := 0 } rfl).1,
    ((stream_out_retry_policy 5 0 Globals.start sample_out_state rfl rfl).2
      { rnd := 1, status := FT_STATUS.FT_OTHER 3, count := 2 } 3 rfl).1⟩

/-- An empty read with status `FT_TIMEOUT` at the start of `stream_in`. -/
theorem stream_in_empty_read_witness :
    (stream_in_step 5 0 { rnd := 1, status := FT_STATUS.FT_TIMEOUT, data := [] }
        Globals.start stream_in_begin).2.2 = some { channel := 0, len := 4 } ∧
      ([] : List Byte).length = 0 ∧
      stream_in_step 5 0 { rnd := 1, status := FT_STATUS.FT_TIMEOUT, data := [] }
          Globals.start stream_in_begin
        = (Globals.start, stream_in_begin, some { channel := 0, len := 4 }) ∧
      stream_in_begin.pc = InPC.loop :=
  ⟨by decide, rfl,
    stream_in_empty_read 5 0 { rnd := 1, status := FT_STATUS.FT_TIMEOUT, data := [] }
      Globals.start stream_in_begin { channel := 0, len := 4 } (by decide) rfl⟩

/-- Two steps of `stream_out` on a missing source, with the `file_length` that
`main` measures for a missing file (`(size_t)-1`). -/
theorem stream_out_open_failure_spins_witness :
    0 < 18446744073709551615 ∧ Globals.start.do_exit = false ∧
      out_no_sigint [OutEvent.step { rnd := 1, status := FT_STATUS.FT_OK, count := 0 },
        OutEvent.step { rnd := 7, status := FT_STATUS.FT_OK, count := 0 }] = true ∧
      (stream_out_run 18446744073709551615 0
          [OutEvent.step { rnd := 1, status := FT_STATUS.FT_OK, count := 0 },
           OutEvent.step { rnd := 7, status := FT_STATUS.FT_OK, count := 0 }]
        { g := Globals.start, s := stream_out_begin none [], calls := [] }).s
        = { pc := OutPC.loop, src := IFStream.openFile none, buf := [], len := 0, total := 0 } :=
  ⟨by decide, rfl, by decide,
    (stream_out_open_failure_spins 18446744073709551615 0 [] Globals.start
      [OutEvent.step { rnd := 1, status := FT_STATUS.FT_OK, count := 0 },
        OutEvent.step { rnd := 7, status := FT_STATUS.FT_OK, count := 0 }]
      (by decide) rfl (by decide)).1⟩

/-- Two channels, the second of which fails verification: status 1, and the
failing pass is the second event, on channel 1. -/
theorem main_exit_status_witness :
    Globals.start.transfer_failed = false ∧
      main_return (main_run sample_src false sample_main_events
        (main_sessions_start 2 Globals.start)) = some 1 ∧
      ((1 : Int) ≠ 0 ↔
        ∃ pre channel dest post v,
          sample_main_events = pre ++ MainEvent.pass channel dest :: post ∧
          (main_run sample_src false pre (main_sessions_start 2 Globals.start)).threads.get?
            channel = some FtPC.running ∧
          compare_content sample_src dest = some v ∧ v.result = false) ∧
      compare_content sample_src [1, 2, 3, 4, 6]
        = some { result := false, report := Report.contentNotSameAt 4 } :=
  ⟨rfl, by decide,
    (main_exit_status sample_src false 2 Globals.start sample_main_events 1 rfl
      (by decide)).1, by decide⟩

/-! ## The start of `main` -/

theorem start_sessions_eq (ch_cnt : Nat) (src dst : String) :
    ∀ (fuel i : Nat) (started : List Worker), i + fuel = ch_cnt →
      start_sessions ch_cnt src dst fuel i started
        = started ++ (List.range' i fuel).map (fun j =>
            Worker.file_transfer (j % 256) src
              (if ch_cnt > 1 then dst ++ toString j else dst)) := by
  intro fuel
  induction fuel with
  | zero => intro i started _; simp [start_sessions]
  | succ f ih =>
    intro i started h
    have hi : i < ch_cnt := by omega
    rw [start_sessions, if_pos hi, ih (i + 1) _ (by omega), List.range'_succ]
    simp

theorem main_fan_out_of_length (ch_cnt : Nat) (src dst : String) (source : Option File)
    (hc : ch_cnt ≤ 4)
    (hlen : toSizeT (get_file_length (IFStream.openFile source)) ≠ 0) :
    main_fan_out ch_cnt src dst source
      = { started := Worker.show_throughput ::
            (List.range (if ch_cnt = 0 then 1 else ch_cnt)).map (fun i =>
              Worker.file_transfer i src
                (if (if ch_cnt = 0 then 1 else ch_cnt) = 1 then dst else dst ++ toString i)),
          status := none } := by
  unfold main_fan_out
  simp only [hlen, if_false]
  rw [start_sessions_eq _ _ _ _ 0 _ (Nat.zero_add _), List.range_eq_range']
  simp only [List.singleton_append, Launch.mk.injEq, List.cons.injEq, true_and, and_true]
  apply List.map_congr_left
  intro j hj
  have hj2 : j < (if ch_cnt = 0 then 1 else ch_cnt) := by
    simpa [List.mem_range'] using hj
  have hb : (if ch_cnt = 0 then 1 else ch_cnt) ≤ 4 := by split_ifs <;> omega
  have hp : 1 ≤ (if ch_cnt = 0 then 1 else ch_cnt) := by split_ifs <;> omega
  have hm : j % 256 = j := Nat.mod_eq_of_lt (by omega)
  rw [hm]
  by_cases h1 : (if ch_cnt = 0 then 1 else ch_cnt) = 1
  · rw [if_pos h1, if_neg (by omega)]
  · rw [if_neg h1, if_pos (by omega)]

/-- C11 (what the code does): when the source file is empty, `main` starts no
channel session, but the throughput meter `show_throughput` has been started
by then, because its thread is created (line 471) before the length is
measured (line 476). The `return -1` that follows does not end `main` with
status -1: it destroys the joinable meter thread and the process is aborted.
The second part is a whole run of `main` with valid arguments on a working
device. -/
theorem main_zero_length_meter_started (ch_cnt : Nat) (src dst : String) :
    main_fan_out ch_cnt src dst (some [])
        = { started := [Worker.show_throughput], status := some MainEnd.aborted } ∧
      main_start sample_consts 4 1 0 sample_device src dst (some [])
        = Except.ok { started := [Worker.show_throughput], status := some MainEnd.aborted } := by
  constructor
  · simp [main_fan_out, get_file_length, IFStream.openFile, toSizeT]
  · rfl

theorem validate_arguments_le (argc : Nat) (arg3 arg4 : Int) (st : Settings)
    (h : (validate_arguments argc arg3 arg4 st).1 = true) :
    (validate_arguments argc arg3 arg4 st).2.ch_cnt ≤ 4 := by
  unfold validate_arguments at h ⊢
  split_ifs at h ⊢ <;> simp_all <;> split_ifs at h ⊢ <;> simp_all

theorem main_start_joining (k : HeaderConsts) (argc : Nat) (arg3 arg4 : Int) (dev : Device)
    (src dst : String) (source : Option File) (l : Launch)
    (hrun : main_start k argc arg3 arg4 dev src dst source = Except.ok l)
    (hjoin : l.status = none) :
    (validate_arguments argc arg3 arg4 Settings.start).1 = true ∧
      toSizeT (get_file_length (IFStream.openFile source)) ≠ 0 ∧
      l = main_fan_out (validate_arguments argc arg3 arg4 Settings.start).2.ch_cnt src dst
        source := by
  unfold main_start at hrun
  simp only [] at hrun
  by_cases hv : (validate_arguments argc arg3 arg4 Settings.start).1 = true
  · simp only [hv, Bool.not_true, Bool.false_eq_true, if_false] at hrun
    by_cases hl : dev.listed = true
    · simp only [hl, Bool.not_true, Bool.false_eq_true, if_false] at hrun
      cases hsc : set_channel_config k dev
          (validate_arguments argc arg3 arg4 Settings.start).2.ch_cnt k.fifo_clk_100 with
      | error code =>
        rw [hsc] at hrun
        simp at hrun
      | ok rev =>
        rw [hsc] at hrun
        simp only [] at hrun
        by_cases hc : dev.create_handle = true
        · simp only [hc, Bool.not_true, Bool.false_eq_true, if_false, Except.ok.injEq] at hrun
          refine ⟨hv, ?_, hrun.symm⟩
          intro h0
          rw [← hrun] at hjoin
          simp [main_fan_out, h0] at hjoin
        · simp only [hc, Bool.not_false, if_true, Except.ok.injEq] at hrun
          rw [← hrun] at hjoin
          simp at hjoin
    · simp only [hl, Bool.not_false, if_true, Except.ok.injEq] at hrun
      rw [← hrun] at hjoin
      simp at hjoin
  · simp only [hv, Bool.not_false, if_true, Except.ok.injEq] at hrun
    rw [← hrun] at hjoin
    simp at hjoin

/-- C12 (as amended): in every run of `main` that gets as far as joining its
sessions (it neither returned early, nor was ended by `exit(-1)` in
`set_ft600_channel_config`, nor found the source length 0), the threads started
are the meter followed by exactly `C` sessions, where `C` is the validated
count with 0 replaced by 1; session `i` runs on channel `i` and writes to the
base name when `C = 1` and to the base name followed by the decimal digits of
`i` when `C > 1`. For `C = 3` and base `out.bin` the targets are `out.bin0`,
`out.bin1`, `out.bin2`. -/
theorem main_start_fan_out (k : HeaderConsts) (argc : Nat) (arg3 arg4 : Int) (dev : Device)
    (src dst : String) (source : Option File) (l : Launch) (ch C : Nat)
    (hrun : main_start k argc arg3 arg4 dev src dst source = Except.ok l)
    (hjoin : l.status = none)
    (hch : ch = (validate_arguments argc arg3 arg4 Settings.start).2.ch_cnt)
    (hC : C = if ch = 0 then 1 else ch) :
    1 ≤ C ∧ C ≤ 4 ∧
    l.started = Worker.show_throughput ::
      (List.range C).map (fun i =>
        Worker.file_transfer i src (if C = 1 then dst else dst ++ toString i)) ∧
    (l.started.filter (fun w => w != Worker.show_throughput)).length = C ∧
    (C = 3 → dst = "out.bin" →
      l.started = [Worker.show_throughput, Worker.file_transfer 0 src "out.bin0",
        Worker.file_transfer 1 src "out.bin1", Worker.file_transfer 2 src "out.bin2"]) := by
  obtain ⟨hv, hlen, hl⟩ := main_start_joining k argc arg3 arg4 dev src dst source l hrun hjoin
  have hle := validate_arguments_le argc arg3 arg4 Settings.start hv
  rw [← hch] at hle hl
  have hfan := main_fan_out_of_length ch src dst source hle hlen
  rw [← hC] at hfan
  have hst : l.started = Worker.show_throughput ::
      (List.range C).map (fun i =>
        Worker.file_transfer i src (if C = 1 then dst else dst ++ toString i)) := by
    rw [hl, hfan]
  refine ⟨by rw [hC]; split_ifs <;> omega, by rw [hC]; split_ifs <;> omega, hst, ?_, ?_⟩
  · rw [hst, List.filter_cons_of_neg (by simp), List.filter_eq_self.mpr, List.length_map,
      List.length_range]
    intro w hw
    simp only [List.mem_map] at hw
    obtain ⟨i, _, rfl⟩ := hw
    simp
  · intro h3 hd
    rw [hst, h3, hd]
    rfl

/-- C12 (counterexample): the claim as stated, for every count, fails for the
accepted count 3 on a working device, where `main` is ended by `exit(-1)`
before any session exists, and for count 1 on an empty source, where only the
meter is started. -/
theorem main_start_no_fan_out :
    (¬ ∃ l : Launch,
        main_start sample_consts 4 3 0 sample_device "in.bin" "out.bin" (some sample_src)
          = Except.ok l ∧
        l.started.filter (fun w => w != Worker.show_throughput)
          = [Worker.file_transfer 0 "in.bin" "out.bin0",
             Worker.file_transfer 1 "in.bin" "out.bin1",
             Worker.file_transfer 2 "in.bin" "out.bin2"]) ∧
    (¬ ∃ l : Launch,
        main_start sample_consts 4 1 0 sample_device "in.bin" "out.bin" (some [])
          = Except.ok l ∧
        l.started.filter (fun w => w != Worker.show_throughput)
          = [Worker.file_transfer 0 "in.bin" "out.bin"]) := by
  constructor
  · rintro ⟨l, h, _⟩
    have h3 : main_start sample_consts 4 3 0 sample_device "in.bin" "out.bin"
        (some sample_src) = Except.error (-1) := rfl
    rw [h3] at h
    simp at h
  · rintro ⟨l, h, hs⟩
    have h1 : main_start sample_consts 4 1 0 sample_device "in.bin" "out.bin" (some [])
        = Except.ok { started := [Worker.show_throughput], status := some MainEnd.aborted } :=
      rfl
    rw [h1] at h
    simp only [Except.ok.injEq] at h
    rw [← h] at hs
    simp at hs

/-- The fan-out for count 3 and base `out.bin` in a run in which the chip
configuration is not read because `FT_GetDeviceInfoDetail` yields no handle. -/
theorem main_start_fan_out_witness :
    main_start sample_consts 4 3 0 sample_device_no_detail "in.bin" "out.bin" (some sample_src)
        = Except.ok (main_fan_out 3 "in.bin" "out.bin" (some sample_src)) ∧
      (main_fan_out 3 "in.bin" "out.bin" (some sample_src)).status = none ∧
      (3 : Nat) = (validate_arguments 4 3 0 Settings.start).2.ch_cnt ∧
      (3 : Nat) = (if 3 = 0 then 1 else 3) ∧
      (main_fan_out 3 "in.bin" "out.bin" (some sample_src)).started
        = [Worker.show_throughput, Worker.file_transfer 0 "in.bin" "out.bin0",
            Worker.file_transfer 1 "in.bin" "out.bin1",
            Worker.file_transfer 2 "in.bin" "out.bin2"] :=
  ⟨rfl, by decide, by decide, by decide,
    (main_start_fan_out sample_consts 4 3 0 sample_device_no_detail "in.bin" "out.bin"
      (some sample_src) (main_fan_out 3 "in.bin" "out.bin" (some sample_src)) 3 3
      rfl (by decide) (by decide) (by decide)).2.2.2.2 rfl rfl⟩

end FileTransfer
